import Mathlib

/-!
# SB Foods API server (`server.js`)

A shallow embedding of the bootstrap and routing shell of the SB Foods REST
API.  The module body of `server.js` is a straight-line script: it registers
middleware and routes on an Express application, starts a database connection,
installs a `SIGTERM` handler and binds the listener.  The embedding follows
the script statement by statement:

* `main` is the module body, one `Stmt` per top-level statement;
* `app` is the Express layer stack the script builds;
* `dispatch` is the router loop of Express run over that stack;
* `Proc.step` is the event loop of the process: the callbacks the script
  installed, run when their event fires.

Behaviour of the packages the script configures (Express routing,
`express-rate-limit`, `cors`, `body-parser`, `serve-static`) is written out as
far as the options passed in `server.js` select it.
-/

namespace SBFoods

/-! ## Environment and requests -/

/-- The variables of `process.env` read by `server.js`; `none` is `undefined`. -/
structure Env where
  NODE_ENV : Option String
  PORT : Option String
  MONGODB_URI : Option String
deriving DecidableEq, Repr

/-- HTTP request methods. -/
inductive Method
  | GET | HEAD | POST | PUT | PATCH | DELETE | OPTIONS
deriving DecidableEq, Repr

/-- What the body parsers see of a request: the media type of the body, its
length in bytes and, for JSON, whether it parses, for a URL-encoded form, how
many parameters it has. -/
inductive ReqBody
  | none
  | json (bytes : Nat) (wellFormed : Bool)
  | urlencoded (bytes : Nat) (params : Nat)
  | other
deriving DecidableEq, Repr

/-- An inbound request.  `path` is the URL path cut at its slashes, without
the leading one: `/api/health` is `["api", "health"]`, `/api/` is
`["api", ""]` and `/` is `[""]`.  `time` is the clock reading (milliseconds
since the epoch) when the request is handled, the value of `new Date()`. -/
structure Request where
  method : Method
  path : List String
  ip : String
  time : Nat
  origin : Option String
  body : ReqBody
deriving DecidableEq, Repr

/-! ## Responses -/

/-- JSON values, as far as the responses of this layer need them. -/
inductive Json
  | null
  | bool (b : Bool)
  | num (n : Nat)
  | str (s : String)
  | obj (fields : List (String × Json))
deriving Repr

/-- Body of a response. -/
inductive ResBody
  | empty
  | text (s : String)
  | json (j : Json)
  | file (bytes : String)
deriving Repr

/-- A finished response. -/
structure Response where
  status : Nat
  body : ResBody
deriving Repr

/-- An error handed to `next(err)`. -/
structure Err where
  status : Option Nat
  message : String
deriving DecidableEq, Repr

/-- What a middleware function does with a request: call `next()`, end the
response, or call `next(err)`. -/
inductive Outcome
  | next
  | respond (r : Response)
  | error (e : Err)
deriving Repr

/-- The object literal handed to `res.json`: a property whose value is
`undefined` is left out by `JSON.stringify`. -/
def jsonObject (props : List (String × Option Json)) : Json :=
  .obj (props.filterMap fun p => p.2.map fun v => (p.1, v))

/-- Lookup of a property of a JSON object. -/
def Json.field (j : Json) (key : String) : Option Json :=
  match j with
  | .obj fields => (fields.find? fun p => p.1 == key).map Prod.snd
  | _ => none

/-! ## Path matching

Express compiles a mount path to a regular expression with the `i` flag
(routing is case-insensitive unless `case sensitive routing` is enabled, which
`server.js` does not do), not `strict` (a trailing slash of the pattern is
optional).  For `app.use(path, fn)` the expression is not anchored at the end
and must stop at a slash or at the end of the path; for `app.get(path, fn)`
it is anchored at the end. -/

/-- Case-insensitive comparison of one path segment with a pattern segment. -/
def segMatch (pat seg : String) : Bool :=
  seg.data.map Char.toLower == pat.data.map Char.toLower

/-- A mount pattern without its optional trailing slash. -/
def stripSlash : List String → List String
  | [] => []
  | [s] => if s = "" then [] else [s]
  | s :: t => s :: stripSlash t

/-- The path starts with the segments `pat`. -/
def startsWith : List String → List String → Bool
  | [], _ => true
  | _ :: _, [] => false
  | p :: ps, s :: ss => segMatch p s && startsWith ps ss

/-- The path is `pat`, possibly followed by one trailing slash. -/
def exactly : List String → List String → Bool
  | [], [] => true
  | [], [s] => s == ""
  | [], _ :: _ :: _ => false
  | _ :: _, [] => false
  | p :: ps, s :: ss => segMatch p s && exactly ps ss

/-- How a layer was registered. -/
inductive Mount
  | all
  | under (pat : List String)
  | get (pat : List String)
deriving DecidableEq, Repr

/-- Does a layer registered with mount `m` take the request? -/
def Mount.accepts (m : Mount) (req : Request) : Bool :=
  match m with
  | .all => true
  | .under pat => startsWith (stripSlash pat) req.path
  | .get pat =>
      (req.method == .GET || req.method == .HEAD) && exactly (stripSlash pat) req.path

/-! ## The stages `server.js` registers -/

/-- Options object passed to `rateLimit`. -/
structure RateLimitOptions where
  windowMs : Nat
  max : Nat
  message : String
deriving DecidableEq, Repr

/-- Options object passed to `cors`. -/
structure CorsOptions where
  origin : List String
  credentials : Bool
deriving DecidableEq, Repr

/-- The seven imported routers. -/
inductive RouteGroup
  | auth | users | dishes | categories | orders | cart | reviews
deriving DecidableEq, Repr

/-- A middleware or handler function, with the options it was built from. -/
inductive Stage
  | helmet
  | compression
  | limiter (opts : RateLimitOptions)
  | cors (opts : CorsOptions)
  | json (limit : Nat)
  | urlencoded (extended : Bool) (limit : Nat)
  | morgan (format : String)
  | static (root : String)
  | health
  | routes (g : RouteGroup)
  | notFound
  | errorHandler
deriving DecidableEq, Repr

/-- One entry of the router stack of the application. -/
structure Layer where
  mount : Mount
  stage : Stage
deriving DecidableEq, Repr

/-- Size in bytes written `'10mb'`. -/
def tenMb : Nat := 10 * 1024 * 1024

/-- The options object of the `rateLimit(...)` call. -/
def limiterOptions : RateLimitOptions where
  windowMs := 15 * 60 * 1000
  max := 100
  message := "Too many requests from this IP, please try again later."

/-- The constant `limiter`. -/
def limiter : Stage := .limiter limiterOptions

/-- The options object of the `cors(...)` call. -/
def corsOptions (env : Env) : CorsOptions where
  origin :=
    if env.NODE_ENV = some "production" then ["https://your-frontend-domain.com"]
    else ["http://localhost:3000", "http://localhost:5173"]
  credentials := true

/-- The constant `PORT`: `process.env.PORT || 5000` (the empty string is falsy). -/
def PORT (env : Env) : String :=
  match env.PORT with
  | some p => if p = "" then "5000" else p
  | none => "5000"

/-! ## The module body -/

/-- Top-level statements of `server.js`. -/
inductive Stmt
  | dotenvConfig
  | createApp
  | use (l : Layer)
  | connectDB
  | onSigterm
  | listen (port : String)
deriving DecidableEq, Repr

/-- The mount path of a route group. -/
def RouteGroup.path : RouteGroup → List String
  | .auth => ["api", "auth"]
  | .users => ["api", "users"]
  | .dishes => ["api", "dishes"]
  | .categories => ["api", "categories"]
  | .orders => ["api", "orders"]
  | .cart => ["api", "cart"]
  | .reviews => ["api", "reviews"]

/-- The statement `app.use('/api/<group>', <group>Routes)`. -/
def mountGroup (g : RouteGroup) : Layer := ⟨.under g.path, .routes g⟩

/-- The seven `app.use('/api/...', ...Routes)` statements, in source order. -/
def apiRoutes : List Layer :=
  [mountGroup .auth, mountGroup .users, mountGroup .dishes, mountGroup .categories,
   mountGroup .orders, mountGroup .cart, mountGroup .reviews]

/-- The statement `app.get('/api/health', ...)`. -/
def healthRoute : Layer := ⟨.get ["api", "health"], .health⟩

/-- The statements from `app.use(helmet())` to
`app.use('/uploads', express.static('uploads'))`. -/
def middleware (env : Env) : List Layer :=
  [⟨.all, .helmet⟩,
   ⟨.all, .compression⟩,
   ⟨.under ["api", ""], limiter⟩,
   ⟨.all, .cors (corsOptions env)⟩,
   ⟨.all, .json tenMb⟩,
   ⟨.all, .urlencoded true tenMb⟩]
  ++ (if env.NODE_ENV = some "development" then [⟨.all, .morgan "dev"⟩] else [])
  ++ [⟨.under ["uploads"], .static "uploads"⟩]

/-- The statements `app.use(notFound)` and `app.use(errorHandler)`. -/
def terminal : List Layer := [⟨.all, .notFound⟩, ⟨.all, .errorHandler⟩]

/-- The module body of `server.js`, statement by statement in source order
(the declarations of `limiter` and `connectDB` only bind a name and are left
out; `connectDB` is the call `connectDB();`). -/
def main (env : Env) : List Stmt :=
  [.dotenvConfig, .createApp]
  ++ (middleware env).map .use
  ++ [.connectDB]
  ++ [.use healthRoute]
  ++ apiRoutes.map .use
  ++ terminal.map .use
  ++ [.onSigterm, .listen (PORT env)]

/-! ## The process -/

/-- What the process does that can be seen from outside, or that later
statements depend on. -/
inductive Effect
  | loadEnv
  | createApp
  | register (l : Layer)
  | connect (uri : Option String)
  | handleSigterm
  | listen (port : String)
  | log (line : String)
  | logError (line : String) (error : String)
  | close
  | exit (code : Nat)
  | uncaught (error : String)
deriving DecidableEq, Repr

/-- The process: what it has done so far, in order, the router stack of
`app`, and the callbacks that are waiting for their event. -/
structure Proc where
  env : Env
  effects : List Effect
  stack : List Layer
  connecting : Bool
  sigtermHandler : Bool
  closing : Nat
  binding : Option String
  exited : Option Nat
deriving DecidableEq, Repr

/-- The process before the module body runs; `env` is the environment as
`dotenv.config()` leaves it. -/
def Proc.init (env : Env) : Proc :=
  ⟨env, [], [], false, false, 0, none, none⟩

/-- Append to the record of what the process has done. -/
def Proc.emit (p : Proc) (es : List Effect) : Proc :=
  { p with effects := p.effects ++ es }

/-- The async function `connectDB`, up to its `await`: `mongoose.connect` is
called with `process.env.MONGODB_URI`, and the rest of the body waits for the
promise while the caller goes on. -/
def connectDB (p : Proc) : Proc :=
  { p.emit [.connect p.env.MONGODB_URI] with connecting := true }

/-- The rest of `connectDB`, run when the promise settles: the end of the `try`
block when it is fulfilled with a connection to `host`, the `catch` block when
it is rejected. -/
def connectDB.resume (p : Proc) : Except String String → Proc
  | .ok host => { p.emit [.log ("MongoDB Connected: " ++ host)] with connecting := false }
  | .error error =>
      { p.emit [.logError "Database connection error:" error, .exit 1] with
        connecting := false, exited := some 1 }

/-- One top-level statement. -/
def Proc.exec (p : Proc) : Stmt → Proc
  | .dotenvConfig => p.emit [.loadEnv]
  | .createApp => p.emit [.createApp]
  | .use l => { p.emit [.register l] with stack := p.stack ++ [l] }
  | .connectDB => connectDB p
  | .onSigterm => { p.emit [.handleSigterm] with sigtermHandler := true }
  | .listen port => { p.emit [.listen port] with binding := some port }

/-- The process when the module body has run to its end. -/
def boot (env : Env) : Proc := (main env).foldl Proc.exec (Proc.init env)

/-- The router stack of `app` once the module body has run. -/
def app (env : Env) : List Layer := (boot env).stack

/-- What the event loop delivers to the callbacks of `server.js`. -/
inductive Event
  | connected (host : String)
  | connectFailed (error : String)
  | sigterm
  | closed
  | closeRejected (error : String)
  | listening
deriving DecidableEq, Repr

/-- A value interpolated into a template literal. -/
def orUndefined : Option String → String
  | some v => v
  | none => "undefined"

/-- The three lines logged by the callback of `app.listen`, with the
characters the template literals of `server.js` hold. -/
def banner (env : Env) (port : String) : List Effect :=
  [.log ("ðŸš€ SB Foods API Server running on port " ++ port),
   .log ("ðŸ“± Environment: " ++ orUndefined env.NODE_ENV),
   .log ("ðŸ”— Health check: http://localhost:" ++ port ++ "/api/health")]

/-- The handler installed by `process.on('SIGTERM', ...)`: it logs and calls
`mongoose.connection.close` with a callback.  What becomes of the call depends
on the mongoose installed, which `server.js` does not fix: before version 7 the
connection is closed and the callback invoked (event `closed`); from version 7
on `close` takes no callback and the call is rejected (event `closeRejected`). -/
def onSigterm (p : Proc) : Proc :=
  { p.emit [.log "SIGTERM received. Shutting down gracefully...", .close] with
    closing := p.closing + 1 }

/-- The callback handed to `mongoose.connection.close`. -/
def onClosed (p : Proc) : Proc :=
  { p.emit [.log "MongoDB connection closed.", .exit 0] with
    closing := p.closing - 1, exited := some 0 }

/-- The call `mongoose.connection.close(callback)` is rejected: the promise
it returns is rejected with `error`, nothing handles the rejection, and Node
prints the error and ends the process with exit code 1.  The callback never
runs and `process.exit` is not called. -/
def onCloseRejected (p : Proc) (error : String) : Proc :=
  { p.emit [.uncaught error] with closing := p.closing - 1, exited := some 1 }

/-- The callback handed to `app.listen`. -/
def onListening (p : Proc) (port : String) : Proc :=
  { p.emit (banner p.env port) with binding := none }

/-- One turn of the event loop.  A process that has exited does nothing.
* `connected`, `connectFailed`: `connectDB` resumes after its `await`;
* `sigterm`: the handler of `SIGTERM` runs; without a handler the signal
  kills the process (status 128 + 15);
* `closed`: the callback handed to `mongoose.connection.close` runs, if a
  close was asked for;
* `closeRejected`: a call of `mongoose.connection.close` is rejected, if a
  close was asked for;
* `listening`: the callback handed to `app.listen` runs. -/
def Proc.step (p : Proc) (e : Event) : Proc :=
  if p.exited.isSome then p else
  match e with
  | .connected host => if p.connecting then connectDB.resume p (.ok host) else p
  | .connectFailed error => if p.connecting then connectDB.resume p (.error error) else p
  | .sigterm => if p.sigtermHandler then onSigterm p else { p with exited := some 143 }
  | .closed => if 0 < p.closing then onClosed p else p
  | .closeRejected error => if 0 < p.closing then onCloseRejected p error else p
  | .listening =>
      match p.binding with
      | some port => onListening p port
      | none => p

/-- The process after the module body and a sequence of events. -/
def run (env : Env) (events : List Event) : Proc :=
  events.foldl Proc.step (boot env)

/-! ## `Date.prototype.toISOString` -/

/-- The decimal digit `n % 10` as a character. -/
def digitChar (n : Nat) : Char := Char.ofNat (48 + n % 10)

/-- Two decimal digits. -/
def pad2 (n : Nat) : List Char := [digitChar (n / 10), digitChar n]

/-- Three decimal digits. -/
def pad3 (n : Nat) : List Char := [digitChar (n / 100), digitChar (n / 10), digitChar n]

/-- Four decimal digits. -/
def pad4 (n : Nat) : List Char :=
  [digitChar (n / 1000), digitChar (n / 100), digitChar (n / 10), digitChar n]

/-- Six decimal digits. -/
def pad6 (n : Nat) : List Char :=
  [digitChar (n / 100000), digitChar (n / 10000)] ++ pad4 n

/-- Year, month and day of the proleptic Gregorian calendar for a number of
days since 1970-01-01. -/
def civil (days : Nat) : Nat × Nat × Nat :=
  let z := days + 719468
  let era := z / 146097
  let doe := z % 146097
  let yoe := (doe - doe / 1460 + doe / 36524 - doe / 146096) / 365
  let doy := doe - (365 * yoe + yoe / 4 - yoe / 100)
  let mp := (5 * doy + 2) / 153
  let d := doy - (153 * mp + 2) / 5 + 1
  let m := if mp < 10 then mp + 3 else mp - 9
  let y := yoe + era * 400
  (if m ≤ 2 then y + 1 else y, m, d)

/-- The characters `YYYY-MM-DDTHH:mm:ss.sssZ` for a calendar date and the
milliseconds `t` elapsed in that day, with the expanded year `+YYYYYY` from the
year 10000 on. -/
def isoFormat (y m d t : Nat) : List Char :=
  (if y ≤ 9999 then pad4 y else '+' :: pad6 y)
  ++ ['-'] ++ pad2 m ++ ['-'] ++ pad2 d ++ ['T']
  ++ pad2 (t / 3600000) ++ [':'] ++ pad2 (t / 60000 % 60) ++ [':'] ++ pad2 (t / 1000 % 60)
  ++ ['.'] ++ pad3 (t % 1000) ++ ['Z']

/-- The characters of `new Date(ms).toISOString()`. -/
def isoChars (ms : Nat) : List Char :=
  let c := civil (ms / 86400000)
  isoFormat c.1 c.2.1 c.2.2 (ms % 86400000)

/-- The value of `new Date(ms).toISOString()`. -/
def toISOString (ms : Nat) : String := String.mk (isoChars ms)

/-- Value of a decimal digit character. -/
def digitVal (c : Char) : Nat := c.toNat - 48

/-- Value of two digit characters. -/
def val2 (a b : Char) : Nat := 10 * digitVal a + digitVal b

/-- The date and time part `-MM-DDTHH:mm:ss.sssZ` that follows the year:
separators in place, digits elsewhere, month 01-12, day 01-31, hour 00-23,
minute and second 00-59. -/
def isIsoTail : List Char → Bool
  | [c0, m1, m2, c1, d1, d2, c2, h1, h2, c3, n1, n2, c4, s1, s2, c5, f1, f2, f3, c6] =>
      [c0, c1, c2, c3, c4, c5, c6] == ['-', '-', 'T', ':', ':', '.', 'Z']
      && [m1, m2, d1, d2, h1, h2, n1, n2, s1, s2, f1, f2, f3].all Char.isDigit
      && 1 ≤ val2 m1 m2 && val2 m1 m2 ≤ 12
      && 1 ≤ val2 d1 d2 && val2 d1 d2 ≤ 31
      && val2 h1 h2 ≤ 23 && val2 n1 n2 ≤ 59 && val2 s1 s2 ≤ 59
  | _ => false

/-- An ISO-8601 date-time in the UTC form JavaScript writes:
`YYYY-MM-DDTHH:mm:ss.sssZ`, or `+YYYYYY-MM-DDTHH:mm:ss.sssZ`. -/
def isIso8601 (s : String) : Bool :=
  match s.data with
  | y1 :: y2 :: y3 :: y4 :: rest =>
      if y1 = '+' then
        match rest with
        | y5 :: y6 :: y7 :: rest => [y2, y3, y4, y5, y6, y7].all Char.isDigit && isIsoTail rest
        | _ => false
      else [y1, y2, y3, y4].all Char.isDigit && isIsoTail rest
  | _ => false

/-! ## Request handling -/

/-- A record of the in-memory store of `express-rate-limit`: the hits counted
for one key in its current window and the time the window ends. -/
structure Client where
  totalHits : Nat
  resetTime : Nat
deriving DecidableEq, Repr

/-- The in-memory store of the rate limiter, keyed by client IP. -/
abbrev Store := String → Option Client

/-- The method `increment(key)` of the store: a key without a record, or whose
window has ended, starts a new window of `windowMs` with its first hit;
otherwise the hit is added to the running window. -/
def Store.increment (s : Store) (windowMs : Nat) (key : String) (now : Nat) : Store × Client :=
  let c : Client :=
    match s key with
    | some c => if c.resetTime ≤ now then ⟨1, now + windowMs⟩ else ⟨c.totalHits + 1, c.resetTime⟩
    | none => ⟨1, now + windowMs⟩
  (fun k => if k = key then some c else s k, c)

/-- State that outlives a request: the store of the limiter and the state
`σ` of the collaborators (database, sessions). -/
structure AppState (σ : Type) where
  store : Store
  ext : σ

/-- The collaborators `server.js` imports or reads but does not define: the
seven routers and the files below the `uploads` directory. -/
structure Collab (σ : Type) where
  routes : RouteGroup → Request → σ → σ × Outcome
  files : List String → Option Response

/-- The middleware built by `rateLimit(opts)`: the key is `req.ip`, every
request counts, and a request whose hit count exceeds `max` is answered with
status 429 and `message`. -/
def rateLimit (opts : RateLimitOptions) (req : Request) (s : Store) : Store × Outcome :=
  let r := s.increment opts.windowMs req.ip req.time
  if r.2.totalHits > opts.max then (r.1, .respond ⟨429, .text opts.message⟩)
  else (r.1, .next)

/-- The middleware built by `cors(opts)`: a preflight (`OPTIONS`) request is
answered with status 204 (`preflightContinue` is off), every other request is
passed on with the CORS headers set. -/
def corsStage (_opts : CorsOptions) (req : Request) : Outcome :=
  if req.method = .OPTIONS then .respond ⟨204, .empty⟩ else .next

/-- The response headers `cors(opts)` sets on a request that is not a
preflight: the request origin is reflected when the allow-list has it. -/
def corsHeaders (opts : CorsOptions) (origin : Option String) : List (String × String) :=
  (match origin with
   | some o => if o ∈ opts.origin then [("Access-Control-Allow-Origin", o)] else []
   | none => [])
  ++ [("Vary", "Origin")]
  ++ (if opts.credentials then [("Access-Control-Allow-Credentials", "true")] else [])

/-- The middleware `express.json` with a size limit: a JSON body over the
limit fails with 413, one that does not parse with 400; bodies of another
media type are left alone. -/
def jsonParser (limit : Nat) (req : Request) : Outcome :=
  match req.body with
  | .json bytes wellFormed =>
      if bytes > limit then .error ⟨some 413, "request entity too large"⟩
      else if wellFormed then .next
      else .error ⟨some 400, "entity.parse.failed"⟩
  | _ => .next

/-- The middleware `express.urlencoded` with a size limit: a form over the
limit, or with more than the default 1000 parameters, fails with 413. -/
def urlencodedParser (limit : Nat) (req : Request) : Outcome :=
  match req.body with
  | .urlencoded bytes params =>
      if bytes > limit then .error ⟨some 413, "request entity too large"⟩
      else if params > 1000 then .error ⟨some 413, "too many parameters"⟩
      else .next
  | _ => .next

/-- The path a mounted function sees: Express strips the mount path. -/
def Mount.below (m : Mount) (path : List String) : List String :=
  match m with
  | .under pat => path.drop (stripSlash pat).length
  | _ => path

/-- The middleware `express.static`: a `GET` or `HEAD` for an existing file
is answered with the file, everything else falls through (`fallthrough` is
on).  `rel` is the path below the mount point. -/
def serveStatic (files : List String → Option Response) (rel : List String) (req : Request) :
    Outcome :=
  if req.method = .GET ∨ req.method = .HEAD then
    match files rel with
    | some r => .respond r
    | none => .next
  else .next

/-- The handler of `app.get('/api/health', ...)`. -/
def health (env : Env) (req : Request) : Outcome :=
  .respond ⟨200, .json (jsonObject
    [("success", some (.bool true)),
     ("message", some (.str "SB Foods API is running!")),
     ("timestamp", some (.str (toISOString req.time))),
     ("environment", env.NODE_ENV.map .str)])⟩

/-- The JSON shape of an error response. -/
def errorJson (message : String) : Json :=
  .obj [("success", .bool false), ("message", .str message)]

/-- Modelled from the spec: `./middleware/notFound.js` is not among the
sources.  The handler `notFound` answers with HTTP 404 and a structured JSON
error body. -/
def notFound (_req : Request) : Outcome :=
  .respond ⟨404, .json (errorJson "Not Found")⟩

/-- Modelled from the spec: `./middleware/errorHandler.js` is not among the
sources.  The handler `errorHandler` answers with a JSON error body of the
same shape and takes the status from the error, falling back to 500. -/
def errorHandler (e : Err) : Response :=
  ⟨e.status.getD 500, .json (errorJson e.message)⟩

/-- Is the function an error-handling middleware (four parameters)?  Express
runs those only while an error is pending, and the others only while none is. -/
def Stage.handlesErrors : Stage → Bool
  | .errorHandler => true
  | _ => false

/-- The function of an ordinary layer run on a request. -/
def runStage {σ : Type} (c : Collab σ) (env : Env) (l : Layer) (req : Request)
    (s : AppState σ) : AppState σ × Outcome :=
  match l.stage with
  | .helmet => (s, .next)
  | .compression => (s, .next)
  | .limiter opts =>
      let r := rateLimit opts req s.store
      ({ s with store := r.1 }, r.2)
  | .cors opts => (s, corsStage opts req)
  | .json limit => (s, jsonParser limit req)
  | .urlencoded _ limit => (s, urlencodedParser limit req)
  | .morgan _ => (s, .next)
  | .static _ => (s, serveStatic c.files (l.mount.below req.path) req)
  | .health => (s, health env req)
  | .routes g =>
      let r := c.routes g req s.ext
      ({ s with ext := r.1 }, r.2)
  | .notFound => (s, notFound req)
  | .errorHandler => (s, .next)

/-- Name of a method as written in a request line. -/
def Method.name : Method → String
  | .GET => "GET" | .HEAD => "HEAD" | .POST => "POST" | .PUT => "PUT"
  | .PATCH => "PATCH" | .DELETE => "DELETE" | .OPTIONS => "OPTIONS"

/-- What Express answers when the stack is exhausted: 404 when no error is
pending, else the status of the error or 500. -/
def finalhandler (req : Request) : Option Err → Response
  | none => ⟨404, .text ("Cannot " ++ req.method.name ++ " /" ++ "/".intercalate req.path)⟩
  | some e => ⟨e.status.getD 500, .text e.message⟩

/-- The outcome of handling one request: the state left behind, the response
and the functions that ran, in the order they ran. -/
structure Handled (σ : Type) where
  state : AppState σ
  response : Response
  ran : List Stage

/-- The router loop of Express: walk the stack in registration order; a layer
runs when its mount takes the request and it is of the kind (ordinary or
error-handling) the pending error calls for. -/
def dispatch {σ : Type} (c : Collab σ) (env : Env) (req : Request) :
    List Layer → Option Err → AppState σ → Handled σ
  | [], err, s => ⟨s, finalhandler req err, []⟩
  | l :: ls, none, s =>
      if l.mount.accepts req && !l.stage.handlesErrors then
        match runStage c env l req s with
        | (s1, .next) =>
            let h := dispatch c env req ls none s1
            { h with ran := l.stage :: h.ran }
        | (s1, .respond r) => ⟨s1, r, [l.stage]⟩
        | (s1, .error e) =>
            let h := dispatch c env req ls (some e) s1
            { h with ran := l.stage :: h.ran }
      else dispatch c env req ls none s
  | l :: ls, some e, s =>
      if l.mount.accepts req && l.stage.handlesErrors then
        ⟨s, errorHandler e, [l.stage]⟩
      else dispatch c env req ls (some e) s

/-- One request handled by the application of `server.js`. -/
def handle {σ : Type} (c : Collab σ) (env : Env) (req : Request) (s : AppState σ) :
    Handled σ :=
  dispatch c env req (app env) none s

/-- The state after a sequence of requests, handled in order of arrival. -/
def stateAfter {σ : Type} (c : Collab σ) (env : Env) (s : AppState σ) :
    List Request → AppState σ
  | [] => s
  | r :: rs => stateAfter c env (handle c env r s).state rs

/-! ## Vocabulary of the properties -/

/-- The request is under `/api/`, where the rate limiter is mounted. -/
def underApi (req : Request) : Bool := (Mount.under ["api", ""]).accepts req

/-- The request is counted by the rate limiter against the client `ip`. -/
def limited (ip : String) (req : Request) : Bool := req.ip == ip && underApi req

/-- How many requests of a sequence the rate limiter counts against `ip`. -/
def hitsOf (ip : String) (reqs : List Request) : Nat := (reqs.filter (limited ip)).length

/-- The store holds no running window for `key` at time `t`. -/
def Store.fresh (s : Store) (key : String) (t : Nat) : Bool :=
  match s key with
  | some c => c.resetTime ≤ t
  | none => true

/-- The function is a rate limiter. -/
def Stage.isLimiter : Stage → Bool
  | .limiter _ => true
  | _ => false

/-- The layers of the application registered after the rate limiter. -/
def afterLimiter (env : Env) : List Layer :=
  (middleware env).drop 3 ++ healthRoute :: apiRoutes ++ terminal

/-- The record the store holds for `ip` when the limiter has counted `k` of
its requests in a window that runs from `t1`: none that is still running when
`k = 0`, else `k` hits in a window that ends no earlier than 15 minutes after `t1`. -/
def windowInv (s : Store) (ip : String) (t1 : Nat) (k : Nat) : Prop :=
  (k = 0 ∧ s.fresh ip t1 = true)
    ∨ (0 < k ∧ ∃ reset, s ip = some ⟨k, reset⟩ ∧ t1 + 900000 ≤ reset)

/-- The function passes the request on with `next()`. -/
def Outcome.passes : Outcome → Bool
  | .next => true
  | _ => false

/-- The layers registered after the request logger: static files, the health
route, the route groups and the terminal handlers. -/
def routing : List Layer :=
  ⟨.under ["uploads"], .static "uploads"⟩ :: healthRoute :: (apiRoutes ++ terminal)

/-- The stages between the rate limiter and static files. -/
def parsers (env : Env) : List Stage :=
  [.cors (corsOptions env), .json tenMb, .urlencoded true tenMb]
  ++ (if env.NODE_ENV = some "development" then [.morgan "dev"] else [])

/-- The CORS headers permit a cross-origin request from `o`: the response
carries `Access-Control-Allow-Origin` with that origin. -/
def permits (opts : CorsOptions) (o : String) : Prop :=
  ("Access-Control-Allow-Origin", o) ∈ corsHeaders opts (some o)

/-- The effect is a call of `mongoose.connect`. -/
def Effect.isConnect : Effect → Bool
  | .connect _ => true
  | _ => false

/-- The event is a rejection of a call of `mongoose.connection.close`. -/
def Event.isCloseRejected : Event → Bool
  | .closeRejected _ => true
  | _ => false

/-! ## Sample inputs -/

/-- Collaborators that never answer: every router passes the request on and
the `uploads` directory is empty. -/
def quiet : Collab Unit where
  routes := fun _ _ u => (u, .next)
  files := fun _ => none

/-- A state with an empty limiter store. -/
def emptyState : AppState Unit := ⟨fun _ => none, ()⟩

/-- An environment with no variable set. -/
def bareEnv : Env := ⟨none, none, none⟩

/-- An environment with `NODE_ENV=development`. -/
def devEnv : Env := ⟨some "development", none, none⟩

/-- An environment with `NODE_ENV=production`. -/
def prodEnv : Env := ⟨some "production", none, none⟩

/-- An environment with `NODE_ENV=production`, `PORT=8080` and a database URI. -/
def liveEnv : Env := ⟨some "production", some "8080", some "mongodb://db.internal:27017/sbfoods"⟩

/-- The error of mongoose 7 and later for a callback handed to `close`. -/
def noCallback : String := "Connection.prototype.close() no longer accepts a callback"

/-- The request `GET /api/health` from 10.0.0.7 at time 0, without `Origin` and
without body. -/
def healthProbe : Request := ⟨.GET, ["api", "health"], "10.0.0.7", 0, none, .none⟩

/-- The request `GET /api/nonexistent` from 10.0.0.7 at time 0. -/
def strayProbe : Request := ⟨.GET, ["api", "nonexistent"], "10.0.0.7", 0, none, .none⟩

/-- Collaborators with one file, `dish.png`, in the `uploads` directory. -/
def withUpload : Collab Unit where
  routes := fun _ _ u => (u, .next)
  files := fun rel => if rel = ["dish.png"] then some ⟨200, .file "PNG"⟩ else none

/-- The request `GET /uploads/dish.png` from 10.0.0.7 at time 0. -/
def uploadProbe : Request := ⟨.GET, ["uploads", "dish.png"], "10.0.0.7", 0, none, .none⟩

/-- No route of the application takes the request: neither `GET /api/health`
nor one of the seven mounted route groups. -/
def unrouted (req : Request) : Bool :=
  !healthRoute.mount.accepts req && apiRoutes.all fun l => !l.mount.accepts req

/-- The second segment of the path a route is registered at: the name of the
route group, or `health`. -/
def Layer.segment (l : Layer) : String :=
  match l.mount with
  | .under (_ :: x :: _) => x
  | .get (_ :: x :: _) => x
  | _ => ""

/-- The request `GET /api/cart/items` from 10.0.0.7 at time 0. -/
def cartProbe : Request := ⟨.GET, ["api", "cart", "items"], "10.0.0.7", 0, none, .none⟩

/-! ## The module body, run -/

theorem foldl_use (ls : List Layer) (p : Proc) :
    (ls.map Stmt.use).foldl Proc.exec p =
      { p with effects := p.effects ++ ls.map Effect.register, stack := p.stack ++ ls } := by
  induction ls generalizing p with
  | nil => simp
  | cons l ls ih => simp [ih, Proc.exec, Proc.emit, connectDB, connectDB.resume, onSigterm, onClosed, onCloseRejected, onListening]

/-- The state of the process at the end of the module body. -/
theorem boot_eq (env : Env) :
    boot env =
      { env := env
        effects := [.loadEnv, .createApp] ++ (middleware env).map Effect.register
          ++ [.connect env.MONGODB_URI]
          ++ (healthRoute :: apiRoutes ++ terminal).map Effect.register
          ++ [.handleSigterm, .listen (PORT env)]
        stack := middleware env ++ healthRoute :: apiRoutes ++ terminal
        connecting := true
        sigtermHandler := true
        closing := 0
        binding := some (PORT env)
        exited := none } := by
  simp [boot, main, List.foldl_append, foldl_use, Proc.exec, Proc.emit, connectDB, connectDB.resume, onSigterm, onClosed, onListening, Proc.init]

theorem app_eq (env : Env) :
    app env = middleware env ++ healthRoute :: apiRoutes ++ terminal := by
  simp [app, boot_eq]

/-! ## The router loop -/

theorem dispatch_ran_sublist {σ : Type} (c : Collab σ) (env : Env) (req : Request) :
    ∀ (ls : List Layer) (err : Option Err) (s : AppState σ),
      List.Sublist (dispatch c env req ls err s).ran (ls.map Layer.stage) := by
  intro ls
  induction ls with
  | nil => intro err s; simp [dispatch]
  | cons l ls ih =>
    intro err s
    cases err with
    | none =>
      simp only [dispatch, List.map_cons]
      split
      · split
        · exact (ih _ _).cons₂ _
        · simp
        · exact (ih _ _).cons₂ _
      · exact (ih _ _).cons _
    | some e =>
      simp only [dispatch, List.map_cons]
      split
      · simp
      · exact (ih _ _).cons _

theorem dispatch_filter {σ : Type} (c : Collab σ) (env : Env) (req : Request) :
    ∀ (ls : List Layer) (err : Option Err) (s : AppState σ),
      dispatch c env req (ls.filter fun l => l.mount.accepts req) err s
        = dispatch c env req ls err s := by
  intro ls
  induction ls with
  | nil => intro err s; rfl
  | cons l ls ih =>
    intro err s
    by_cases h : l.mount.accepts req = true
    · simp only [List.filter_cons, h, if_true]
      cases err with
      | none => simp only [dispatch, ih]
      | some e => simp only [dispatch, ih]
    · simp only [List.filter_cons, h]
      cases err with
      | none => simp [dispatch, ih, h]
      | some e => simp [dispatch, ih, h]

/-! ## The rate limiter -/

theorem app_split (env : Env) :
    app env =
      ⟨.all, .helmet⟩ :: ⟨.all, .compression⟩
        :: ⟨.under ["api", ""], .limiter limiterOptions⟩ :: afterLimiter env := by
  simp [app_eq, middleware, limiter, afterLimiter]

theorem afterLimiter_cons (env : Env) :
    ∃ rest, afterLimiter env = ⟨.all, .cors (corsOptions env)⟩ :: rest := by
  simp [afterLimiter, middleware, limiter]

theorem afterLimiter_isLimiter (env : Env) :
    ∀ l ∈ afterLimiter env, l.stage.isLimiter = false := by
  intro l hl
  have hall : (afterLimiter env).all (fun l => !l.stage.isLimiter) = true := by
    simp only [afterLimiter, middleware, limiter]
    split_ifs <;> rfl
  simpa using List.all_eq_true.mp hall l hl

theorem runStage_store {σ : Type} (c : Collab σ) (env : Env) (l : Layer) (req : Request)
    (s : AppState σ) (h : l.stage.isLimiter = false) :
    (runStage c env l req s).1.store = s.store := by
  unfold runStage
  split <;> first | rfl | simp [Stage.isLimiter, *] at h

theorem dispatch_store {σ : Type} (c : Collab σ) (env : Env) (req : Request) :
    ∀ (ls : List Layer), (∀ l ∈ ls, l.stage.isLimiter = false) →
      ∀ (err : Option Err) (s : AppState σ),
        (dispatch c env req ls err s).state.store = s.store := by
  intro ls
  induction ls with
  | nil => intro _ err s; rfl
  | cons l ls ih =>
    intro h err s
    have hl := h l (List.mem_cons_self _ _)
    have ih := ih fun x hx => h x (List.mem_cons_of_mem _ hx)
    cases err with
    | none =>
      simp only [dispatch]
      split
      · have hs := runStage_store c env l req s hl
        split <;> rename_i heq <;> rw [heq] at hs <;> simp only [ih] <;> exact hs
      · exact ih _ _
    | some e =>
      simp only [dispatch]
      split
      · rfl
      · exact ih _ _

theorem dispatch_skip {σ : Type} (c : Collab σ) (env : Env) (req : Request) (l : Layer)
    (ls : List Layer) (err : Option Err) (s : AppState σ) (h : l.mount.accepts req = false) :
    dispatch c env req (l :: ls) err s = dispatch c env req ls err s := by
  cases err <;> simp [dispatch, h]

theorem dispatch_next {σ : Type} (c : Collab σ) (env : Env) (req : Request) (l : Layer)
    (ls : List Layer) (s s1 : AppState σ) (ha : l.mount.accepts req = true)
    (he : l.stage.handlesErrors = false) (hr : runStage c env l req s = (s1, .next)) :
    dispatch c env req (l :: ls) none s =
      { dispatch c env req ls none s1 with ran := l.stage :: (dispatch c env req ls none s1).ran } := by
  simp [dispatch, ha, he, hr]

theorem dispatch_respond {σ : Type} (c : Collab σ) (env : Env) (req : Request) (l : Layer)
    (ls : List Layer) (s s1 : AppState σ) (r : Response) (ha : l.mount.accepts req = true)
    (he : l.stage.handlesErrors = false) (hr : runStage c env l req s = (s1, .respond r)) :
    dispatch c env req (l :: ls) none s = ⟨s1, r, [l.stage]⟩ := by
  simp [dispatch, ha, he, hr]

theorem dispatch_error {σ : Type} (c : Collab σ) (env : Env) (req : Request) (l : Layer)
    (ls : List Layer) (s s1 : AppState σ) (e : Err) (ha : l.mount.accepts req = true)
    (he : l.stage.handlesErrors = false) (hr : runStage c env l req s = (s1, .error e)) :
    dispatch c env req (l :: ls) none s =
      { dispatch c env req ls (some e) s1 with
        ran := l.stage :: (dispatch c env req ls (some e) s1).ran } := by
  simp [dispatch, ha, he, hr]

theorem dispatch_pending {σ : Type} (c : Collab σ) (env : Env) (req : Request) (l : Layer)
    (ls : List Layer) (s : AppState σ) (e : Err) (he : l.stage.handlesErrors = false) :
    dispatch c env req (l :: ls) (some e) s = dispatch c env req ls (some e) s := by
  simp [dispatch, he]

/-- Every request passes `helmet` and `compression` and, under `/api/`, comes
to the rate limiter. -/
theorem handle_api {σ : Type} (c : Collab σ) (env : Env) (req : Request) (s : AppState σ)
    (hapi : underApi req = true) :
    handle c env req s =
      let r := s.store.increment 900000 req.ip req.time
      if 100 < r.2.totalHits then
        ⟨{ s with store := r.1 },
         ⟨429, .text "Too many requests from this IP, please try again later."⟩,
         [.helmet, .compression, .limiter limiterOptions]⟩
      else
        let h := dispatch c env req (afterLimiter env) none { s with store := r.1 }
        { h with ran := .helmet :: .compression :: .limiter limiterOptions :: h.ran } := by
  rw [handle, app_split,
    dispatch_next c env req ⟨.all, .helmet⟩ _ s s rfl rfl rfl,
    dispatch_next c env req ⟨.all, .compression⟩ _ s s rfl rfl rfl]
  by_cases hover : 100 < (s.store.increment 900000 req.ip req.time).2.totalHits
  · rw [dispatch_respond c env req ⟨.under ["api", ""], .limiter limiterOptions⟩ _ s
      { s with store := (s.store.increment 900000 req.ip req.time).1 }
      ⟨429, .text "Too many requests from this IP, please try again later."⟩ hapi rfl
      (by simp [runStage, rateLimit, limiterOptions, hover])]
    simp [hover]
  · rw [dispatch_next c env req ⟨.under ["api", ""], .limiter limiterOptions⟩ _ s
      { s with store := (s.store.increment 900000 req.ip req.time).1 } hapi rfl
      (by simp [runStage, rateLimit, limiterOptions, hover])]
    simp [hover]

/-- A request outside `/api/` does not come to the rate limiter. -/
theorem handle_other {σ : Type} (c : Collab σ) (env : Env) (req : Request) (s : AppState σ)
    (hapi : underApi req = false) :
    handle c env req s =
      let h := dispatch c env req (afterLimiter env) none s
      { h with ran := .helmet :: .compression :: h.ran } := by
  rw [handle, app_split,
    dispatch_next c env req ⟨.all, .helmet⟩ _ s s rfl rfl rfl,
    dispatch_next c env req ⟨.all, .compression⟩ _ s s rfl rfl rfl,
    dispatch_skip c env req ⟨.under ["api", ""], .limiter limiterOptions⟩ _ _ _ hapi]

theorem handle_store {σ : Type} (c : Collab σ) (env : Env) (req : Request) (s : AppState σ) :
    (handle c env req s).state.store =
      if underApi req = true then (s.store.increment 900000 req.ip req.time).1 else s.store := by
  by_cases hapi : underApi req = true
  · rw [handle_api c env req s hapi, if_pos hapi]
    simp only
    split
    · rfl
    · exact dispatch_store c env req _ (afterLimiter_isLimiter env) _ _
  · rw [handle_other c env req s (by simpa using hapi), if_neg hapi]
    exact dispatch_store c env req _ (afterLimiter_isLimiter env) _ _

theorem increment_window (s : Store) (ip : String) (t1 k now : Nat)
    (hinv : windowInv s ip t1 k) (h1 : t1 ≤ now) (h2 : now < t1 + 900000) :
    (s.increment 900000 ip now).2.totalHits = k + 1
      ∧ windowInv (s.increment 900000 ip now).1 ip t1 (k + 1) := by
  rcases hinv with ⟨hk, hf⟩ | ⟨hk, reset, hs, hreset⟩
  · subst hk
    unfold Store.fresh at hf
    unfold Store.increment
    cases hs : s ip with
    | none =>
      refine ⟨by simp, Or.inr ⟨by omega, now + 900000, by simp, by omega⟩⟩
    | some cl =>
      rw [hs] at hf
      have hle : cl.resetTime ≤ now := by
        have : cl.resetTime ≤ t1 := by simpa using hf
        omega
      refine ⟨by simp [hle], Or.inr ⟨by omega, now + 900000, by simp [hle], by omega⟩⟩
  · unfold Store.increment
    have hnot : ¬ reset ≤ now := by omega
    refine ⟨by simp [hs, hnot], Or.inr ⟨by omega, reset, by simp [hs, hnot], hreset⟩⟩

theorem increment_other (s : Store) (ip key : String) (t1 k now w : Nat)
    (hinv : windowInv s ip t1 k) (hne : key ≠ ip) :
    windowInv (s.increment w key now).1 ip t1 k := by
  have hsame : (s.increment w key now).1 ip = s ip := by
    simp [Store.increment, Ne.symm hne]
  unfold windowInv Store.fresh at *
  rw [hsame]
  exact hinv

/-- One request keeps the record of `ip` in step with the count of its
requests under `/api/`. -/
theorem handle_window {σ : Type} (c : Collab σ) (env : Env) (q : Request) (s : AppState σ)
    (ip : String) (t1 k : Nat) (hinv : windowInv s.store ip t1 k)
    (hq : limited ip q = true → t1 ≤ q.time ∧ q.time < t1 + 900000) :
    windowInv (handle c env q s).state.store ip t1 (k + hitsOf ip [q]) := by
  rw [handle_store]
  by_cases hapi : underApi q = true
  · rw [if_pos hapi]
    by_cases hip : q.ip = ip
    · have hl : limited ip q = true := by simp [limited, hip, hapi]
      have hcount : hitsOf ip [q] = 1 := by simp [hitsOf, hl]
      rw [hcount, hip]
      exact (increment_window s.store ip t1 k q.time hinv (hq hl).1 (hq hl).2).2
    · have hl : limited ip q = false := by simp [limited, hip]
      have hcount : hitsOf ip [q] = 0 := by simp [hitsOf, hl]
      rw [hcount]
      exact increment_other s.store ip q.ip t1 k q.time 900000 hinv hip
  · rw [if_neg hapi]
    have hl : limited ip q = false := by simp [limited, hapi]
    have hcount : hitsOf ip [q] = 0 := by simp [hitsOf, hl]
    rw [hcount]
    exact hinv

theorem hitsOf_cons (ip : String) (q : Request) (qs : List Request) :
    hitsOf ip (q :: qs) = hitsOf ip [q] + hitsOf ip qs := by
  unfold hitsOf
  by_cases h : limited ip q = true <;> simp [List.filter_cons, h]
  omega

/-- After any sequence of requests whose counted ones lie in the window, the
record of `ip` holds their number. -/
theorem stateAfter_window {σ : Type} (c : Collab σ) (env : Env) (ip : String) (t1 : Nat) :
    ∀ (reqs : List Request) (s : AppState σ) (k : Nat), windowInv s.store ip t1 k →
      (∀ q ∈ reqs, limited ip q = true → t1 ≤ q.time ∧ q.time < t1 + 900000) →
      windowInv (stateAfter c env s reqs).store ip t1 (k + hitsOf ip reqs) := by
  intro reqs
  induction reqs with
  | nil => intro s k hinv _; simpa [stateAfter, hitsOf] using hinv
  | cons q qs ih =>
    intro s k hinv hwin
    rw [stateAfter, hitsOf_cons, ← Nat.add_assoc]
    exact ih _ _ (handle_window c env q s ip t1 k hinv (hwin q (List.mem_cons_self _ _)))
      fun x hx => hwin x (List.mem_cons_of_mem _ hx)

/-- The hit count the limiter sees for a request of `ip` that follows the
requests `earlier`, all in one window that opened on a fresh record. -/
theorem hits_after {σ : Type} (c : Collab σ) (env : Env) (s0 : AppState σ) (ip : String)
    (t1 : Nat) (earlier : List Request) (r : Request)
    (hfresh : s0.store.fresh ip t1 = true)
    (hwin : ∀ q ∈ earlier ++ [r], limited ip q = true → t1 ≤ q.time ∧ q.time < t1 + 900000)
    (hr : limited ip r = true) :
    ((stateAfter c env s0 earlier).store.increment 900000 r.ip r.time).2.totalHits
      = hitsOf ip earlier + 1 := by
  have hinv := stateAfter_window c env ip t1 earlier s0 0 (Or.inl ⟨rfl, hfresh⟩)
    fun q hq => hwin q (List.mem_append_left _ hq)
  rw [Nat.zero_add] at hinv
  have hrt := hwin r (by simp) hr
  have hip : r.ip = ip := by
    have := hr
    simp [limited] at this
    exact this.1
  rw [hip]
  exact (increment_window _ ip t1 _ r.time hinv hrt.1 hrt.2).1

theorem afterLimiter_ran {σ : Type} (c : Collab σ) (env : Env) (req : Request)
    (s : AppState σ) :
    ∃ rest, (dispatch c env req (afterLimiter env) none s).ran
      = .cors (corsOptions env) :: rest := by
  obtain ⟨tl, htl⟩ := afterLimiter_cons env
  rw [htl]
  by_cases hopt : req.method = .OPTIONS
  · rw [dispatch_respond c env req ⟨.all, .cors (corsOptions env)⟩ tl s s ⟨204, .empty⟩ rfl rfl
      (by simp [runStage, corsStage, hopt])]
    exact ⟨[], rfl⟩
  · rw [dispatch_next c env req ⟨.all, .cors (corsOptions env)⟩ tl s s rfl rfl
      (by simp [runStage, corsStage, hopt])]
    exact ⟨_, rfl⟩

/-- C1: requests counted against one client IP (requests from that IP to paths
under `/api/`) that all lie in one 15-minute window, opened on a record that is
not running: whatever other requests are handled in between, a request that
follows fewer than 100 counted ones is passed on by the rate limiter to the
next stage (`cors`), and one that follows 100 or more (the 101st, and every
later one) is answered by the limiter itself with status 429 and the
configured message, after `helmet` and `compression` and with no later stage
run.  The window and the threshold are the constants 900000 ms and 100. -/
theorem rate_limiter_window {σ : Type} (c : Collab σ) (env : Env) (s0 : AppState σ)
    (ip : String) (t1 : Nat) (earlier : List Request) (r : Request)
    (hfresh : s0.store.fresh ip t1 = true)
    (hwin : ∀ q ∈ earlier ++ [r], limited ip q = true →
      t1 ≤ q.time ∧ q.time < t1 + limiterOptions.windowMs)
    (hr : limited ip r = true) :
    limiterOptions.windowMs = 900000 ∧ limiterOptions.max = 100
    ∧ (hitsOf ip earlier < 100 →
        ∃ rest, (handle c env r (stateAfter c env s0 earlier)).ran
          = .helmet :: .compression :: .limiter limiterOptions :: .cors (corsOptions env) :: rest)
    ∧ (100 ≤ hitsOf ip earlier →
        (handle c env r (stateAfter c env s0 earlier)).response
            = ⟨429, .text "Too many requests from this IP, please try again later."⟩
          ∧ (handle c env r (stateAfter c env s0 earlier)).ran
            = [.helmet, .compression, .limiter limiterOptions]) := by
  have hapi : underApi r = true := by
    have := hr
    simp [limited] at this
    exact this.2
  have hhits := hits_after c env s0 ip t1 earlier r hfresh hwin hr
  refine ⟨rfl, rfl, fun hk => ?_, fun hk => ?_⟩
  · rw [handle_api c env r _ hapi]
    simp only [hhits]
    rw [if_neg (by omega)]
    obtain ⟨rest, hrest⟩ := afterLimiter_ran c env r
      { stateAfter c env s0 earlier with
        store := ((stateAfter c env s0 earlier).store.increment 900000 r.ip r.time).1 }
    exact ⟨rest, by rw [hrest]⟩
  · rw [handle_api c env r _ hapi]
    simp only [hhits]
    rw [if_pos (by omega)]
    exact ⟨rfl, rfl⟩

theorem hitsOf_replicate (ip : String) (q : Request) (n : Nat) (h : limited ip q = true) :
    hitsOf ip (List.replicate n q) = n := by
  induction n with
  | zero => rfl
  | succ n ih => rw [List.replicate_succ, hitsOf_cons, ih]; simp [hitsOf, h]; omega

/-- C1, at 101 requests `GET /api/health` from 10.0.0.7 at time 0 on an empty
store: the 101st is answered with status 429. -/
theorem rate_limiter_window_witness :
    (handle quiet bareEnv healthProbe
        (stateAfter quiet bareEnv emptyState (List.replicate 100 healthProbe))).response
      = ⟨429, .text "Too many requests from this IP, please try again later."⟩ :=
  ((rate_limiter_window quiet bareEnv emptyState "10.0.0.7" 0
      (List.replicate 100 healthProbe) healthProbe rfl
      (fun q hq _ => by
        have hq : q = healthProbe := by
          rcases List.mem_append.mp hq with h | h
          · exact List.eq_of_mem_replicate h
          · simpa using h
        subst hq
        decide)
      (by decide)).2.2.2
    (by rw [hitsOf_replicate _ _ _ (by decide)])).1

/-! ## From the rate limiter to the routes -/

theorem passes_eq {o : Outcome} (h : o.passes = true) : o = .next := by
  cases o <;> first | rfl | cases h

/-- A request that is no preflight and whose body the parsers accept passes
`cors`, both body parsers and the request logger. -/
theorem afterLimiter_pass {σ : Type} (c : Collab σ) (env : Env) (req : Request)
    (s : AppState σ) (hm : req.method ≠ .OPTIONS)
    (hj : (jsonParser tenMb req).passes = true)
    (hu : (urlencodedParser tenMb req).passes = true) :
    dispatch c env req (afterLimiter env) none s =
      { dispatch c env req routing none s with
        ran := parsers env ++ (dispatch c env req routing none s).ran } := by
  have hcors : runStage c env ⟨.all, .cors (corsOptions env)⟩ req s = (s, .next) := by
    simp [runStage, corsStage, hm]
  have hjson : runStage c env ⟨.all, .json tenMb⟩ req s = (s, .next) := by
    simp [runStage, passes_eq hj]
  have hurl : runStage c env ⟨.all, .urlencoded true tenMb⟩ req s = (s, .next) := by
    simp [runStage, passes_eq hu]
  by_cases hdev : env.NODE_ENV = some "development"
  · have hsplit : afterLimiter env = ⟨.all, .cors (corsOptions env)⟩ :: ⟨.all, .json tenMb⟩
        :: ⟨.all, .urlencoded true tenMb⟩ :: ⟨.all, .morgan "dev"⟩ :: routing := by
      simp [afterLimiter, middleware, limiter, routing, hdev]
    rw [hsplit, dispatch_next c env req ⟨.all, .cors (corsOptions env)⟩ _ s s rfl rfl hcors,
      dispatch_next c env req ⟨.all, .json tenMb⟩ _ s s rfl rfl hjson,
      dispatch_next c env req ⟨.all, .urlencoded true tenMb⟩ _ s s rfl rfl hurl,
      dispatch_next c env req ⟨.all, .morgan "dev"⟩ _ s s rfl rfl rfl]
    simp [parsers, hdev]
  · have hsplit : afterLimiter env = ⟨.all, .cors (corsOptions env)⟩ :: ⟨.all, .json tenMb⟩
        :: ⟨.all, .urlencoded true tenMb⟩ :: routing := by
      simp [afterLimiter, middleware, limiter, routing, hdev]
    rw [hsplit, dispatch_next c env req ⟨.all, .cors (corsOptions env)⟩ _ s s rfl rfl hcors,
      dispatch_next c env req ⟨.all, .json tenMb⟩ _ s s rfl rfl hjson,
      dispatch_next c env req ⟨.all, .urlencoded true tenMb⟩ _ s s rfl rfl hurl]
    simp [parsers, hdev]

/-- The state and the response of a request that the stages up to the
request logger pass on are those of the layers after them. -/
theorem handle_pass {σ : Type} (c : Collab σ) (env : Env) (req : Request) (s : AppState σ)
    (hlim : underApi req = true → (rateLimit limiterOptions req s.store).2.passes = true)
    (hm : req.method ≠ .OPTIONS)
    (hj : (jsonParser tenMb req).passes = true)
    (hu : (urlencodedParser tenMb req).passes = true) :
    ∃ s1 : AppState σ, s1.ext = s.ext ∧
      (handle c env req s).response = (dispatch c env req routing none s1).response ∧
      (handle c env req s).state = (dispatch c env req routing none s1).state ∧
      ∃ before, (handle c env req s).ran
        = before ++ (dispatch c env req routing none s1).ran := by
  by_cases hapi : underApi req = true
  · have hnot : ¬ 100 < (s.store.increment 900000 req.ip req.time).2.totalHits := by
      intro hover
      have := hlim hapi
      simp [rateLimit, limiterOptions, hover, Outcome.passes] at this
    refine ⟨{ s with store := (s.store.increment 900000 req.ip req.time).1 }, rfl, ?_⟩
    rw [handle_api c env req s hapi]
    simp only [if_neg hnot]
    rw [afterLimiter_pass c env req _ hm hj hu]
    exact ⟨rfl, rfl, [.helmet, .compression, .limiter limiterOptions] ++ parsers env, by simp⟩
  · refine ⟨s, rfl, ?_⟩
    rw [handle_other c env req s (by simpa using hapi)]
    simp only
    rw [afterLimiter_pass c env req _ hm hj hu]
    exact ⟨rfl, rfl, [.helmet, .compression] ++ parsers env, by simp⟩

/-! ## The timestamp -/

theorem digitChar_cases (n : Nat) :
    (digitChar n).isDigit = true ∧ digitVal (digitChar n) = n % 10 ∧ digitChar n ≠ '+' := by
  have h : n % 10 < 10 := Nat.mod_lt _ (by decide)
  unfold digitChar
  generalize n % 10 = k at h
  interval_cases k <;> decide

theorem val2_pad (n : Nat) : val2 (digitChar (n / 10)) (digitChar n) = n % 100 := by
  simp only [val2, (digitChar_cases _).2.1]
  omega

theorem civil_month (days : Nat) : 1 ≤ (civil days).2.1 ∧ (civil days).2.1 ≤ 12 := by
  simp only [civil]
  split <;> omega

theorem civil_day (days : Nat) : 1 ≤ (civil days).2.2 ∧ (civil days).2.2 ≤ 31 := by
  simp only [civil]
  omega


theorem isIsoTail_iso (m d t : Nat) (hm : 1 ≤ m ∧ m ≤ 12) (hd : 1 ≤ d ∧ d ≤ 31)
    (ht : t < 86400000) :
    isIsoTail (['-'] ++ pad2 m ++ ['-'] ++ pad2 d ++ ['T']
      ++ pad2 (t / 3600000) ++ [':'] ++ pad2 (t / 60000 % 60) ++ [':'] ++ pad2 (t / 1000 % 60)
      ++ ['.'] ++ pad3 (t % 1000) ++ ['Z']) = true := by
  simp only [pad2, pad3, List.cons_append, List.nil_append, isIsoTail, List.all_cons,
    List.all_nil, (digitChar_cases _).1, val2_pad, Bool.and_true, Bool.true_and,
    Bool.and_eq_true, decide_eq_true_eq, beq_self_eq_true, true_and]
  omega

theorem isIso8601_isoFormat (y m d t : Nat) (hm : 1 ≤ m ∧ m ≤ 12) (hd : 1 ≤ d ∧ d ≤ 31)
    (ht : t < 86400000) : isIso8601 (String.mk (isoFormat y m d t)) = true := by
  have tail := isIsoTail_iso _ _ _ hm hd ht
  unfold isoFormat isIso8601
  split_ifs with hy
  · simp only [pad4, List.cons_append, List.nil_append, List.append_assoc] at tail ⊢
    have h1 := (digitChar_cases (y / 1000)).2.2
    simp [(digitChar_cases _).1, tail, h1]
  · simp only [pad4, pad6, List.cons_append, List.nil_append, List.append_assoc] at tail ⊢
    simp [(digitChar_cases _).1, tail]

theorem isIso8601_toISOString (ms : Nat) : isIso8601 (toISOString ms) = true :=
  isIso8601_isoFormat _ _ _ _ (civil_month _) (civil_day _) (Nat.mod_lt _ (by norm_num))

/-! ## The health check -/

theorem segMatch_excl (p q a : String)
    (hne : (p.data.map Char.toLower == q.data.map Char.toLower) = false)
    (h : segMatch p a = true) : segMatch q a = false := by
  unfold segMatch at *
  rw [beq_iff_eq] at h
  rw [h, hne]

/-- A request over the flood: after 100 copies of a request under `/api/`
handled on a record that was not running, one more copy is answered 429. -/
theorem flood {σ : Type} (c : Collab σ) (env : Env) (s0 : AppState σ) (r : Request)
    (hapi : underApi r = true) (hfresh : s0.store.fresh r.ip r.time = true) :
    (handle c env r (stateAfter c env s0 (List.replicate 100 r))).response
      = ⟨429, .text "Too many requests from this IP, please try again later."⟩ := by
  have hl : limited r.ip r = true := by simp [limited, hapi]
  have hhits := hits_after c env s0 r.ip r.time (List.replicate 100 r) r hfresh
    (fun q hq _ => by
      have hq : q = r := by
        rcases List.mem_append.mp hq with h | h
        · exact List.eq_of_mem_replicate h
        · simpa using h
      subst hq
      omega) hl
  rw [hitsOf_replicate _ _ _ hl] at hhits
  rw [handle_api c env r _ hapi]
  simp only [hhits]
  rw [if_pos (by omega)]

/-- C2 as stated fails: the 101st `GET /api/health` of one client in a window is
answered 429 by the rate limiter; with `NODE_ENV` unset the body has no
`environment` property; and a `GET /api/health` that carries a JSON body which
does not parse goes from `express.json` to the error handler and never comes
to the health handler. -/
theorem health_not_always_200 :
    (handle quiet bareEnv healthProbe
        (stateAfter quiet bareEnv emptyState (List.replicate 100 healthProbe))).response.status
      = 429
    ∧ (∃ j, (handle quiet bareEnv healthProbe emptyState).response.body = .json j
        ∧ j.field "success" = some (.bool true) ∧ j.field "environment" = none)
    ∧ (handle quiet bareEnv { healthProbe with body := .json 1 false } emptyState).ran
      = [.helmet, .compression, limiter, .cors (corsOptions bareEnv), .json tenMb,
         .errorHandler] := by
  refine ⟨?_, ⟨_, rfl, rfl, rfl⟩, rfl⟩
  rw [flood quiet bareEnv emptyState healthProbe (by decide) rfl]

theorem exactly_health (path : List String) (h : exactly ["api", "health"] path = true) :
    startsWith ["api"] path = true ∧ startsWith ["uploads"] path = false := by
  match path, h with
  | a :: _, h =>
    have ha : segMatch "api" a = true := by
      simp only [exactly, Bool.and_eq_true] at h
      exact h.1
    exact ⟨by simp [startsWith, ha], by simp [startsWith, segMatch_excl "api" "uploads" a (by decide) ha]⟩

theorem field_environment (env : Env) (t : String) :
    (jsonObject
        [("success", some (.bool true)),
         ("message", some (.str "SB Foods API is running!")),
         ("timestamp", some (.str t)),
         ("environment", env.NODE_ENV.map .str)]).field "environment"
      = env.NODE_ENV.map .str := by
  cases h : env.NODE_ENV <;> rfl

/-- C2, amended: a `GET /api/health` that the rate limiter admits and whose
body, if it has one, the body parsers accept is answered with status 200 and a
JSON body in which `success` is `true`, `message` is the string
`SB Foods API is running!`, `timestamp` is the clock reading as an ISO-8601
string, and `environment` is the string `NODE_ENV` when that variable is set
and is absent when it is not. -/
theorem health_ok {σ : Type} (c : Collab σ) (env : Env) (req : Request) (s : AppState σ)
    (hget : req.method = .GET)
    (hpath : exactly ["api", "health"] req.path = true)
    (hlim : (rateLimit limiterOptions req s.store).2.passes = true)
    (hj : (jsonParser tenMb req).passes = true)
    (hu : (urlencodedParser tenMb req).passes = true) :
    (handle c env req s).response.status = 200
    ∧ ∃ j, (handle c env req s).response.body = .json j
      ∧ j.field "success" = some (.bool true)
      ∧ j.field "message" = some (.str "SB Foods API is running!")
      ∧ j.field "timestamp" = some (.str (toISOString req.time))
      ∧ isIso8601 (toISOString req.time) = true
      ∧ j.field "environment" = env.NODE_ENV.map .str := by
  obtain ⟨hapi, hup⟩ := exactly_health req.path hpath
  obtain ⟨s1, -, hresp, -, -⟩ := handle_pass c env req s (fun _ => hlim)
    (by rw [hget]; decide) hj hu
  have hacc : healthRoute.mount.accepts req = true := by
    simp [healthRoute, Mount.accepts, stripSlash, hget, hpath]
  have hrouting : dispatch c env req routing none s1
      = ⟨s1, ⟨200, .json (jsonObject
          [("success", some (.bool true)),
           ("message", some (.str "SB Foods API is running!")),
           ("timestamp", some (.str (toISOString req.time))),
           ("environment", env.NODE_ENV.map .str)])⟩, [.health]⟩ := by
    rw [routing, dispatch_skip c env req ⟨.under ["uploads"], .static "uploads"⟩ _ _ _
      (by simpa [Mount.accepts, stripSlash] using hup)]
    exact dispatch_respond c env req healthRoute _ s1 s1 _ hacc rfl rfl
  rw [hresp, hrouting]
  exact ⟨rfl, _, rfl, rfl, rfl, rfl, isIso8601_toISOString _, field_environment env _⟩

/-- C2, amended, at `GET /api/health` on an empty store with
`NODE_ENV=development`: status 200. -/
theorem health_ok_witness :
    (handle quiet devEnv healthProbe emptyState).response.status = 200 :=
  (health_ok quiet devEnv healthProbe emptyState rfl (by decide) rfl rfl rfl).1

/-! ## Unmatched paths -/

/-- C3 as stated fails on requests no route takes: the 101st
`GET /api/nonexistent` of one client in a window is answered 429 by the rate
limiter; `GET /uploads/dish.png` is answered 200 with the file;
`OPTIONS /api/nonexistent` is answered 204 by `cors`; and
`POST /api/nonexistent` with a JSON body that does not parse is answered 400. -/
theorem stray_not_always_404 :
    unrouted strayProbe = true ∧ unrouted uploadProbe = true
    ∧ (handle quiet bareEnv strayProbe
        (stateAfter quiet bareEnv emptyState (List.replicate 100 strayProbe))).response.status
      = 429
    ∧ (handle withUpload bareEnv uploadProbe emptyState).response.status = 200
    ∧ (handle quiet bareEnv { strayProbe with method := .OPTIONS } emptyState).response.status
      = 204
    ∧ (handle quiet bareEnv { strayProbe with method := .POST, body := .json 1 false }
        emptyState).response.status = 400 := by
  refine ⟨by decide, by decide, ?_, rfl, rfl, rfl⟩
  rw [flood quiet bareEnv emptyState strayProbe (by decide) rfl]

theorem routing_unrouted {σ : Type} (c : Collab σ) (env : Env) (req : Request)
    (s : AppState σ) (hun : unrouted req = true)
    (hstatic : (Mount.under ["uploads"]).accepts req = true →
      (serveStatic c.files (req.path.drop 1) req).passes = true) :
    (dispatch c env req routing none s).response = ⟨404, .json (errorJson "Not Found")⟩
    ∧ (dispatch c env req routing none s).ran.getLast? = some .notFound := by
  simp only [unrouted, apiRoutes, List.all_cons, List.all_nil, Bool.and_true,
    Bool.and_eq_true, Bool.not_eq_true'] at hun
  obtain ⟨hh, h1, h2, h3, h4, h5, h6, h7⟩ := hun
  have hrest : dispatch c env req (healthRoute :: (apiRoutes ++ terminal)) none s
      = ⟨s, ⟨404, .json (errorJson "Not Found")⟩, [.notFound]⟩ := by
    rw [dispatch_skip c env req healthRoute _ _ _ hh]
    simp only [apiRoutes, List.cons_append, List.nil_append]
    rw [dispatch_skip c env req _ _ _ _ h1, dispatch_skip c env req _ _ _ _ h2,
      dispatch_skip c env req _ _ _ _ h3, dispatch_skip c env req _ _ _ _ h4,
      dispatch_skip c env req _ _ _ _ h5, dispatch_skip c env req _ _ _ _ h6,
      dispatch_skip c env req _ _ _ _ h7]
    exact dispatch_respond c env req ⟨.all, .notFound⟩ _ s s _ rfl rfl rfl
  by_cases hup : (Mount.under ["uploads"]).accepts req = true
  · rw [routing, dispatch_next c env req ⟨.under ["uploads"], .static "uploads"⟩ _ s s hup rfl
      (by
        have hnext := passes_eq (hstatic hup)
        show (s, serveStatic c.files (req.path.drop 1) req) = (s, .next)
        rw [hnext]), hrest]
    exact ⟨rfl, rfl⟩
  · rw [routing, dispatch_skip c env req ⟨.under ["uploads"], .static "uploads"⟩ _ _ _
      (by simpa using hup), hrest]
    exact ⟨rfl, rfl⟩

/-- C3, amended: a request that no route takes (not `GET /api/health`, not
under one of the seven mounted paths) and that every stage of the pipeline
passes on (the rate limiter admits it if it is under `/api/`, it is no
preflight, the body parsers accept its body, and no file under `/uploads` is
served for it) is answered by the `notFound` handler, with status 404 and the
structured JSON error body. -/
theorem stray_not_found {σ : Type} (c : Collab σ) (env : Env) (req : Request)
    (s : AppState σ) (hun : unrouted req = true)
    (hlim : underApi req = true → (rateLimit limiterOptions req s.store).2.passes = true)
    (hm : req.method ≠ .OPTIONS)
    (hj : (jsonParser tenMb req).passes = true)
    (hu : (urlencodedParser tenMb req).passes = true)
    (hstatic : (Mount.under ["uploads"]).accepts req = true →
      (serveStatic c.files (req.path.drop 1) req).passes = true) :
    (handle c env req s).response = ⟨404, .json (errorJson "Not Found")⟩
    ∧ (handle c env req s).ran.getLast? = some .notFound := by
  obtain ⟨s1, -, hresp, -, before, hran⟩ := handle_pass c env req s hlim hm hj hu
  obtain ⟨h404, hlast⟩ := routing_unrouted c env req s1 hun hstatic
  refine ⟨by rw [hresp, h404], ?_⟩
  rw [hran]
  cases hr : (dispatch c env req routing none s1).ran with
  | nil => rw [hr] at hlast; cases hlast
  | cons x xs =>
    rw [hr] at hlast
    rw [List.getLast?_append_of_ne_nil _ (by simp), hlast]

/-- C3, amended, at `GET /api/nonexistent` on an empty store: status 404 with
the JSON error body. -/
theorem stray_not_found_witness :
    (handle quiet bareEnv strayProbe emptyState).response
      = ⟨404, .json (errorJson "Not Found")⟩ :=
  (stray_not_found quiet bareEnv strayProbe emptyState (by decide) (fun _ => rfl)
    (by decide) rfl rfl (fun h => absurd h (by decide))).1

/-! ## Cross-origin policy -/

theorem permits_iff (opts : CorsOptions) (o : String) : permits opts o ↔ o ∈ opts.origin := by
  unfold permits corsHeaders
  by_cases h : o ∈ opts.origin
  · simp [h]
  · cases hc : opts.credentials <;> simp [h]

/-- C4: the CORS allow-list depends on `NODE_ENV` alone; it is
`['https://your-frontend-domain.com']` when `NODE_ENV` is `production` and
`['http://localhost:3000', 'http://localhost:5173']` for every other value,
unset included; credentials are enabled in both cases; the `cors` stage of the
application is built from these options.  So `http://localhost:5173` is
permitted whenever `NODE_ENV` is not `production`, and in production no origin
but the listed one is permitted. -/
theorem cors_allow_list (env : Env) :
    (∀ other : Env, other.NODE_ENV = env.NODE_ENV → corsOptions other = corsOptions env)
    ∧ (corsOptions env).origin =
        (if env.NODE_ENV = some "production" then ["https://your-frontend-domain.com"]
         else ["http://localhost:3000", "http://localhost:5173"])
    ∧ (corsOptions env).credentials = true
    ∧ (⟨.all, .cors (corsOptions env)⟩ : Layer) ∈ app env
    ∧ (env.NODE_ENV ≠ some "production" → permits (corsOptions env) "http://localhost:5173")
    ∧ (env.NODE_ENV = some "production" →
        ∀ o, permits (corsOptions env) o ↔ o = "https://your-frontend-domain.com") := by
  refine ⟨fun other h => by simp [corsOptions, h], rfl, rfl, ?_, fun h => ?_, fun h o => ?_⟩
  · simp [app_eq, middleware, limiter]
  · rw [permits_iff]
    simp [corsOptions, h]
  · rw [permits_iff]
    simp [corsOptions, h]

/-- C4, with `NODE_ENV` unset and with `NODE_ENV=production`:
`http://localhost:5173` is permitted in the first and not in the second. -/
theorem cors_allow_list_witness :
    permits (corsOptions bareEnv) "http://localhost:5173"
    ∧ ¬ permits (corsOptions prodEnv) "http://localhost:5173" :=
  ⟨(cors_allow_list bareEnv).2.2.2.2.1 (by decide),
   fun h => absurd (((cors_allow_list prodEnv).2.2.2.2.2 rfl _).mp h) (by decide)⟩

/-! ## Registration order -/

/-- C7: the middleware pipeline of the application is, in this order,
`helmet`, `compression`, the rate limiter under `/api/`, `cors`, the JSON body
parser (limit 10mb), the URL-encoded body parser (limit 10mb), the request
logger, static files under `/uploads`, followed by the routes and the terminal
handlers; the request logger is there if and only if `NODE_ENV` is
`development`; and the functions that run for one request run in the order of
registration, as for `GET /api/health` in development, which runs every stage
but static files and then the health handler. -/
theorem pipeline_order (env : Env) :
    app env =
      [⟨.all, .helmet⟩, ⟨.all, .compression⟩,
       ⟨.under ["api", ""], .limiter limiterOptions⟩,
       ⟨.all, .cors (corsOptions env)⟩,
       ⟨.all, .json tenMb⟩, ⟨.all, .urlencoded true tenMb⟩]
      ++ (if env.NODE_ENV = some "development" then [⟨.all, .morgan "dev"⟩] else [])
      ++ [⟨.under ["uploads"], .static "uploads"⟩]
      ++ (healthRoute :: apiRoutes ++ terminal)
    ∧ tenMb = 10485760
    ∧ ((∃ l ∈ app env, ∃ format, l.stage = .morgan format)
        ↔ env.NODE_ENV = some "development")
    ∧ (∀ (σ : Type) (c : Collab σ) (req : Request) (s : AppState σ),
        List.Sublist (handle c env req s).ran ((app env).map Layer.stage))
    ∧ (handle quiet devEnv healthProbe emptyState).ran =
        [.helmet, .compression, .limiter limiterOptions, .cors (corsOptions devEnv),
         .json tenMb, .urlencoded true tenMb, .morgan "dev", .health] := by
  refine ⟨by simp [app_eq, middleware, limiter], rfl, ?_, fun σ c req s => ?_, rfl⟩
  · rw [app_eq]
    by_cases h : env.NODE_ENV = some "development"
    · simp [middleware, limiter, h]
    · simp [middleware, limiter, h, healthRoute, apiRoutes, terminal, mountGroup]
  · exact dispatch_ran_sublist c env req _ _ _

/-- C8: each of the seven route groups is mounted at its own path, and the
router stack of the application is the middleware pipeline, then
`GET /api/health` and the seven route groups, then `notFound`, then
`errorHandler`, which is last. -/
theorem routes_registration (env : Env) :
    apiRoutes =
      [⟨.under ["api", "auth"], .routes .auth⟩,
       ⟨.under ["api", "users"], .routes .users⟩,
       ⟨.under ["api", "dishes"], .routes .dishes⟩,
       ⟨.under ["api", "categories"], .routes .categories⟩,
       ⟨.under ["api", "orders"], .routes .orders⟩,
       ⟨.under ["api", "cart"], .routes .cart⟩,
       ⟨.under ["api", "reviews"], .routes .reviews⟩]
    ∧ healthRoute = ⟨.get ["api", "health"], .health⟩
    ∧ app env =
        middleware env ++ (healthRoute :: apiRoutes)
          ++ [⟨.all, .notFound⟩, ⟨.all, .errorHandler⟩]
    ∧ (∀ l ∈ middleware env, l ∉ healthRoute :: apiRoutes ∧ l.stage ≠ .notFound
        ∧ l.stage ≠ .errorHandler)
    ∧ (app env).getLast? = some ⟨.all, .errorHandler⟩
    ∧ (app env).Nodup := by
  refine ⟨rfl, rfl, by simp [app_eq, terminal], ?_, ?_, ?_⟩
  · by_cases h : env.NODE_ENV = some "development" <;>
      simp [middleware, limiter, h, healthRoute, apiRoutes, mountGroup]
  · rw [app_eq, List.getLast?_append_of_ne_nil _ (by simp [terminal])]
    rfl
  · rw [app_eq]
    by_cases h : env.NODE_ENV = some "development" <;>
      simp [middleware, limiter, h, healthRoute, apiRoutes, terminal, mountGroup, RouteGroup.path]

/-- C8, in development: `helmet`, a stage of the pipeline, is neither the
health route nor one of the seven mounts. -/
theorem routes_registration_witness :
    (⟨.all, .helmet⟩ : Layer) ∉ healthRoute :: apiRoutes :=
  ((routes_registration devEnv).2.2.2.1 ⟨.all, .helmet⟩ (by decide)).1

/-! ## Mount order -/

theorem route_segment (req : Request) :
    ∀ l ∈ healthRoute :: apiRoutes, l.mount.accepts req = true →
      ∃ a b rest, req.path = a :: b :: rest ∧ segMatch l.segment b = true := by
  intro l hl hacc
  match hp : req.path with
  | [] =>
    simp only [healthRoute, apiRoutes, mountGroup, List.mem_cons, List.mem_singleton,
      List.not_mem_nil, or_false] at hl
    rcases hl with h | h | h | h | h | h | h | h <;> subst h <;>
      simp [Mount.accepts, stripSlash, RouteGroup.path, startsWith, exactly, hp] at hacc
  | [_] =>
    simp only [healthRoute, apiRoutes, mountGroup, List.mem_cons, List.mem_singleton,
      List.not_mem_nil, or_false] at hl
    rcases hl with h | h | h | h | h | h | h | h <;> subst h <;>
      simp [Mount.accepts, stripSlash, RouteGroup.path, startsWith, exactly, hp] at hacc
  | a :: b :: rest =>
    refine ⟨a, b, rest, rfl, ?_⟩
    simp only [healthRoute, apiRoutes, mountGroup, List.mem_cons, List.mem_singleton,
      List.not_mem_nil, or_false] at hl
    rcases hl with h | h | h | h | h | h | h | h <;> subst h <;>
      simp [Mount.accepts, stripSlash, RouteGroup.path, startsWith, exactly, hp] at hacc <;>
      simp [Layer.segment, RouteGroup.path, hacc]

theorem route_segments_differ :
    ∀ l1 ∈ healthRoute :: apiRoutes, ∀ l2 ∈ healthRoute :: apiRoutes, l1 ≠ l2 →
      (l1.segment.data.map Char.toLower == l2.segment.data.map Char.toLower) = false := by
  decide

theorem route_unique (req : Request) :
    ∀ l1 ∈ healthRoute :: apiRoutes, ∀ l2 ∈ healthRoute :: apiRoutes,
      l1.mount.accepts req = true → l2.mount.accepts req = true → l1 = l2 := by
  intro l1 h1 l2 h2 a1 a2
  by_contra hne
  obtain ⟨a, b, rest, hp, hb⟩ := route_segment req l1 h1 a1
  obtain ⟨a', b', rest', hp', hb'⟩ := route_segment req l2 h2 a2
  rw [hp] at hp'
  injection hp' with _ htl
  injection htl with hbb _
  subst hbb
  have := segMatch_excl _ _ b (route_segments_differ l1 h1 l2 h2 hne) hb
  rw [this] at hb'
  cases hb'

theorem filter_le_one {α : Type} (p : α → Bool) (l : List α) (hnd : l.Nodup)
    (huniq : ∀ x ∈ l, ∀ y ∈ l, p x = true → p y = true → x = y) :
    (l.filter p).length ≤ 1 := by
  have hnd2 : (l.filter p).Nodup := hnd.filter p
  match hf : l.filter p with
  | [] => simp
  | [_] => simp
  | x :: y :: t =>
    rw [hf] at hnd2
    have hx : x ∈ l.filter p := by rw [hf]; simp
    have hy : y ∈ l.filter p := by rw [hf]; simp
    have hxy := huniq x (List.mem_filter.mp hx).1 y (List.mem_filter.mp hy).1
      (List.mem_filter.mp hx).2 (List.mem_filter.mp hy).2
    subst hxy
    simp at hnd2

theorem perm_short {α : Type} (l1 l2 : List α) (hp : l1.Perm l2) (hlen : l2.length ≤ 1) :
    l1 = l2 := by
  match l2, hlen with
  | [], _ => exact List.Perm.eq_nil hp
  | [x], _ => exact List.perm_singleton.mp hp

theorem filter_perm_routes (req : Request) (perm : List Layer) (hp : perm.Perm apiRoutes) :
    perm.filter (fun l => l.mount.accepts req) = apiRoutes.filter (fun l => l.mount.accepts req) := by
  refine perm_short _ _ (hp.filter _) (filter_le_one _ _ (by decide) ?_)
  intro x hx y hy
  exact route_unique req x (List.mem_cons_of_mem _ hx) y (List.mem_cons_of_mem _ hy)

/-- C9: the paths of `GET /api/health` and of the seven route groups are
pairwise disjoint, at most one of them takes a given request; so with the
seven `app.use('/api/...')` statements in any other order every request is
handled as under the order of `server.js`: same functions run, same response,
same state. -/
theorem mount_order_irrelevant :
    (∀ req : Request, ∀ l1 ∈ healthRoute :: apiRoutes, ∀ l2 ∈ healthRoute :: apiRoutes,
      l1.mount.accepts req = true → l2.mount.accepts req = true → l1 = l2)
    ∧ ∀ perm : List Layer, perm.Perm apiRoutes →
        ∀ (σ : Type) (c : Collab σ) (env : Env) (req : Request) (s : AppState σ),
          dispatch c env req (middleware env ++ healthRoute :: perm ++ terminal) none s
            = handle c env req s := by
  refine ⟨route_unique, fun perm hp σ c env req s => ?_⟩
  rw [handle, app_eq, ← dispatch_filter c env req (middleware env ++ healthRoute :: perm ++ terminal),
    ← dispatch_filter c env req (middleware env ++ healthRoute :: apiRoutes ++ terminal)]
  simp only [List.filter_append, List.cons_append, List.filter_cons, filter_perm_routes req perm hp]

/-- C9, with the seven mounts registered in reverse order and the request
`GET /api/cart/items`. -/
theorem mount_order_irrelevant_witness :
    dispatch quiet bareEnv cartProbe
        (middleware bareEnv ++ healthRoute :: apiRoutes.reverse ++ terminal) none emptyState
      = handle quiet bareEnv cartProbe emptyState :=
  mount_order_irrelevant.2 apiRoutes.reverse (List.reverse_perm _) Unit quiet bareEnv cartProbe
    emptyState

/-! ## Startup -/

theorem run_snoc (env : Env) (evs : List Event) (e : Event) :
    run env (evs ++ [e]) = (run env evs).step e := by
  simp [run, List.foldl_append]

theorem run_append (env : Env) (evs later : List Event) :
    run env (evs ++ later) = later.foldl Proc.step (run env evs) := by
  simp [run, List.foldl_append]

theorem step_effects (p : Proc) (e : Event) : ∃ more, (p.step e).effects = p.effects ++ more := by
  unfold Proc.step
  split
  · exact ⟨[], by simp⟩
  · cases e with
    | connected host => simp only; split <;> simp [Proc.emit, connectDB, connectDB.resume, onSigterm, onClosed, onCloseRejected, onListening]
    | connectFailed error => simp only; split <;> simp [Proc.emit, connectDB, connectDB.resume, onSigterm, onClosed, onCloseRejected, onListening]
    | sigterm => simp only; split <;> simp [Proc.emit, connectDB, connectDB.resume, onSigterm, onClosed, onCloseRejected, onListening]
    | closed => simp only; split <;> simp [Proc.emit, connectDB, connectDB.resume, onSigterm, onClosed, onCloseRejected, onListening]
    | closeRejected error => simp only; split <;> simp [Proc.emit, onCloseRejected]
    | listening => simp only; split <;> simp [Proc.emit, connectDB, connectDB.resume, onSigterm, onClosed, onCloseRejected, onListening]

theorem foldl_effects (evs : List Event) :
    ∀ p : Proc, ∃ more, (evs.foldl Proc.step p).effects = p.effects ++ more := by
  induction evs with
  | nil => intro p; exact ⟨[], by simp⟩
  | cons e evs ih =>
    intro p
    obtain ⟨m1, h1⟩ := step_effects p e
    obtain ⟨m2, h2⟩ := ih (p.step e)
    exact ⟨m1 ++ m2, by rw [List.foldl_cons, h2, h1, List.append_assoc]⟩

/-- C10 as stated fails: with no variable set, the first ten things the
process does are to load the configuration, create the application, register
the seven middleware stages from `helmet` to static files, and only then call
`mongoose.connect`. -/
theorem connect_after_middleware :
    (boot bareEnv).effects.take 10 =
      [.loadEnv, .createApp,
       .register ⟨.all, .helmet⟩,
       .register ⟨.all, .compression⟩,
       .register ⟨.under ["api", ""], limiter⟩,
       .register ⟨.all, .cors ⟨["http://localhost:3000", "http://localhost:5173"], true⟩⟩,
       .register ⟨.all, .json tenMb⟩,
       .register ⟨.all, .urlencoded true tenMb⟩,
       .register ⟨.under ["uploads"], .static "uploads"⟩,
       .connect none] := by
  decide

/-- C10, amended: the module body loads the configuration, creates the
application, registers the middleware pipeline, then calls `mongoose.connect`
without waiting for it, then registers `GET /api/health`, the seven route
groups, `notFound` and `errorHandler`, then installs the `SIGTERM` handler,
then binds the listener on the configured port (`PORT`, or 5000); at the end of
the module body the connection is still pending and the process runs; the
banner (port, environment, health-check URL) is logged when the listener is
bound; and whatever happens later happens after all of this. -/
theorem startup_sequence (env : Env) :
    (boot env).effects =
      [.loadEnv, .createApp] ++ (middleware env).map Effect.register
        ++ [.connect env.MONGODB_URI]
        ++ (healthRoute :: apiRoutes ++ terminal).map Effect.register
        ++ [.handleSigterm, .listen (PORT env)]
    ∧ (boot env).connecting = true ∧ (boot env).exited = none
    ∧ (run env [.listening]).effects = (boot env).effects ++
        [.log ("ðŸš€ SB Foods API Server running on port " ++ PORT env),
         .log ("ðŸ“± Environment: " ++ orUndefined env.NODE_ENV),
         .log ("ðŸ”— Health check: http://localhost:" ++ PORT env ++ "/api/health")]
    ∧ ∀ evs : List Event, ∃ later, (run env evs).effects = (boot env).effects ++ later := by
  refine ⟨by rw [boot_eq], by rw [boot_eq], by rw [boot_eq], ?_, fun evs => foldl_effects evs _⟩
  simp [run, Proc.step, boot_eq, Proc.emit, connectDB, connectDB.resume, onSigterm, onClosed, onListening, banner]

/-! ## Database connection and shutdown -/

theorem step_connects (p : Proc) (e : Event) :
    (p.step e).effects.filter Effect.isConnect = p.effects.filter Effect.isConnect := by
  unfold Proc.step
  split
  · rfl
  · cases e <;> simp only <;> split <;>
      simp [Proc.emit, connectDB.resume, onSigterm, onClosed, onCloseRejected, onListening,
        Effect.isConnect, banner]

theorem foldl_connects (evs : List Event) :
    ∀ p : Proc, (evs.foldl Proc.step p).effects.filter Effect.isConnect
      = p.effects.filter Effect.isConnect := by
  induction evs with
  | nil => intro p; rfl
  | cons e evs ih => intro p; rw [List.foldl_cons, ih, step_connects]

theorem boot_connects (env : Env) :
    (boot env).effects.filter Effect.isConnect = [.connect env.MONGODB_URI] := by
  rw [boot_eq]
  by_cases h : env.NODE_ENV = some "development" <;>
    simp [middleware, limiter, h, apiRoutes, terminal, Effect.isConnect]

/-- While the process runs, `process.exit(1)` has not been called. -/
theorem step_alive (p : Proc) (e : Event)
    (h : p.exited = none → Effect.exit 1 ∉ p.effects) :
    (p.step e).exited = none → Effect.exit 1 ∉ (p.step e).effects := by
  unfold Proc.step
  split
  · exact h
  · rename_i halive
    have hnone : p.exited = none := by simpa using halive
    have hn := h hnone
    cases e <;> simp only <;> split <;>
      simp [Proc.emit, connectDB.resume, onSigterm, onClosed, onCloseRejected, onListening,
        banner, hn, hnone]

theorem run_alive (env : Env) (evs : List Event) :
    (run env evs).exited = none → Effect.exit 1 ∉ (run env evs).effects := by
  induction evs using List.reverseRecOn with
  | nil =>
    intro _
    rw [run, List.foldl_nil, boot_eq]
    by_cases h : env.NODE_ENV = some "development" <;>
      simp [middleware, limiter, h, apiRoutes, terminal]
  | append_singleton evs e ih => rw [run_snoc]; exact step_alive _ e ih

/-- Once `connectDB` has returned, `process.exit(1)` is not called. -/
theorem step_returned (p : Proc) (e : Event)
    (h : p.connecting = false ∧ Effect.exit 1 ∉ p.effects) :
    (p.step e).connecting = false ∧ Effect.exit 1 ∉ (p.step e).effects := by
  obtain ⟨h1, h2⟩ := h
  unfold Proc.step
  split
  · exact ⟨h1, h2⟩
  · cases e <;> simp only <;> split <;>
      simp_all [Proc.emit, connectDB.resume, onSigterm, onClosed, onCloseRejected, onListening,
        banner]

theorem foldl_returned (evs : List Event) :
    ∀ p : Proc, (p.connecting = false ∧ Effect.exit 1 ∉ p.effects) →
      Effect.exit 1 ∉ (evs.foldl Proc.step p).effects := by
  induction evs with
  | nil => intro p h; exact h.2
  | cons e evs ih => intro p h; exact ih _ (step_returned p e h)

/-- Once `connectDB` has returned, only a rejected `close` ends the process
with exit code 1. -/
theorem step_settled (p : Proc) (e : Event) (he : e.isCloseRejected = false)
    (h : p.connecting = false ∧ p.sigtermHandler = true ∧ p.exited ≠ some 1) :
    (p.step e).connecting = false ∧ (p.step e).sigtermHandler = true
      ∧ (p.step e).exited ≠ some 1 := by
  obtain ⟨h1, h2, h3⟩ := h
  unfold Proc.step
  split
  · exact ⟨h1, h2, h3⟩
  · cases e with
    | connected host => simp [h1, h2, h3]
    | connectFailed error => simp [h1, h2, h3]
    | sigterm => simp [Proc.emit, onSigterm, h1, h2, h3]
    | closed => simp only; split <;> simp [Proc.emit, onClosed, h1, h2, h3]
    | closeRejected error => cases he
    | listening => simp only; split <;> simp [Proc.emit, onListening, h1, h2, h3]

theorem foldl_settled (evs : List Event) :
    ∀ p : Proc, (∀ e ∈ evs, e.isCloseRejected = false) →
      (p.connecting = false ∧ p.sigtermHandler = true ∧ p.exited ≠ some 1) →
      (evs.foldl Proc.step p).exited ≠ some 1 := by
  induction evs with
  | nil => intro p _ h; exact h.2.2
  | cons e evs ih =>
    intro p hall h
    exact ih _ (fun x hx => hall x (List.mem_cons_of_mem _ hx))
      (step_settled p e (hall e (List.mem_cons_self _ _)) h)

/-- The handler of `SIGTERM` stays installed. -/
theorem step_handler (p : Proc) (e : Event) (h : p.sigtermHandler = true) :
    (p.step e).sigtermHandler = true := by
  unfold Proc.step
  split
  · exact h
  · cases e <;> simp only <;> (try split) <;>
      simp_all [Proc.emit, connectDB.resume, onSigterm, onClosed, onCloseRejected, onListening]

theorem run_handler (env : Env) (evs : List Event) : (run env evs).sigtermHandler = true := by
  induction evs using List.reverseRecOn with
  | nil => simp [run, boot_eq]
  | append_singleton evs e ih => rw [run_snoc]; exact step_handler _ e ih

/-- C5: `mongoose.connect` is called once, with `MONGODB_URI`, and never
again, whatever happens.  When the connection attempt fails while the process
runs, `connectDB` logs the error and the process exits with status 1.  When it
succeeds, `connectDB` logs the host and does not end the process:
`process.exit(1)` is not called then or later, and the process does not end
with exit code 1 unless a call of `mongoose.connection.close` is rejected. -/
theorem connect_once_fatal (env : Env) (evs : List Event) :
    (run env evs).effects.filter Effect.isConnect = [.connect env.MONGODB_URI]
    ∧ ((run env evs).connecting = true → (run env evs).exited = none →
        (∀ error, (run env (evs ++ [.connectFailed error])).effects
            = (run env evs).effects
              ++ [.logError "Database connection error:" error, .exit 1]
          ∧ (run env (evs ++ [.connectFailed error])).exited = some 1)
        ∧ ∀ host later,
          (run env (evs ++ [.connected host])).effects
            = (run env evs).effects ++ [.log ("MongoDB Connected: " ++ host)]
          ∧ Effect.exit 1 ∉ (run env (evs ++ .connected host :: later)).effects
          ∧ ((∀ e ∈ later, e.isCloseRejected = false) →
              (run env (evs ++ .connected host :: later)).exited ≠ some 1)) := by
  refine ⟨by rw [run, foldl_connects, boot_connects],
    fun hc hx => ⟨fun error => ?_, fun host later => ⟨?_, ?_, fun hall => ?_⟩⟩⟩
  · rw [run_snoc]
    simp [Proc.step, hc, hx, Proc.emit, connectDB.resume]
  · rw [run_snoc]
    simp [Proc.step, hc, hx, Proc.emit, connectDB.resume]
  · rw [run_append, List.foldl_cons]
    refine foldl_returned later _ ?_
    have hn := run_alive env evs hx
    simp [Proc.step, hc, hx, Proc.emit, connectDB.resume, hn]
  · rw [run_append, List.foldl_cons]
    refine foldl_settled later _ hall ?_
    have hh := run_handler env evs
    simp [Proc.step, hc, hx, Proc.emit, connectDB.resume, hh]

/-- C5, right after the module body: the connection is pending and the process
runs; a failure with `ECONNREFUSED` makes the process exit with status 1. -/
theorem connect_once_fatal_witness :
    (run bareEnv [.connectFailed "ECONNREFUSED"]).exited = some 1 :=
  (((connect_once_fatal bareEnv []).2 (by decide) (by decide)).1 "ECONNREFUSED").2

theorem step_closing (p : Proc) (e : Event) (h : 0 < (p.step e).closing) :
    0 < p.closing ∨ e = .sigterm := by
  unfold Proc.step at h
  split at h
  · exact Or.inl h
  · cases e with
    | sigterm => exact Or.inr rfl
    | connected host =>
      simp only at h; split at h <;> exact Or.inl (by simpa [Proc.emit, connectDB.resume] using h)
    | connectFailed error =>
      simp only at h; split at h <;> exact Or.inl (by simpa [Proc.emit, connectDB.resume] using h)
    | closed =>
      simp only at h
      split at h
      · rename_i hpos; exact Or.inl hpos
      · exact Or.inl h
    | closeRejected error =>
      simp only at h
      split at h
      · rename_i hpos; exact Or.inl hpos
      · exact Or.inl h
    | listening =>
      simp only at h; split at h <;> exact Or.inl (by simpa [Proc.emit, onListening] using h)

theorem run_closing (env : Env) (evs : List Event) (h : 0 < (run env evs).closing) :
    Event.sigterm ∈ evs := by
  induction evs using List.reverseRecOn with
  | nil => simp [run, boot_eq] at h
  | append_singleton evs e ih =>
    rw [run_snoc] at h
    rcases step_closing _ e h with h1 | h1
    · exact List.mem_append_left _ (ih h1)
    · simp [h1]

/-- What one turn of the event loop does to the exit status, as long as no
call of `close` is rejected: nothing, or the close callback exits with 0, or
`connectDB` exits with 1. -/
theorem step_exit (p : Proc) (e : Event) (hh : p.sigtermHandler = true)
    (he : e.isCloseRejected = false) :
    (p.step e).exited = p.exited
      ∨ (p.exited = none ∧ e = .closed ∧ 0 < p.closing ∧ (p.step e).exited = some 0)
      ∨ (p.exited = none ∧ (∃ error, e = .connectFailed error) ∧ p.connecting = true
          ∧ (p.step e).exited = some 1) := by
  unfold Proc.step
  split
  · exact Or.inl rfl
  · rename_i halive
    have hnone : p.exited = none := by simpa using halive
    cases e with
    | connected host => simp only; split <;> exact Or.inl (by simp [Proc.emit, connectDB.resume])
    | connectFailed error =>
      simp only
      split
      · rename_i hc
        exact Or.inr (Or.inr ⟨hnone, ⟨error, rfl⟩, hc, by simp [connectDB.resume]⟩)
      · exact Or.inl rfl
    | sigterm => exact Or.inl (by simp [hh, Proc.emit, onSigterm])
    | closed =>
      simp only
      split
      · rename_i hpos
        exact Or.inr (Or.inl ⟨hnone, trivial, hpos, by simp [onClosed]⟩)
      · exact Or.inl rfl
    | closeRejected error => cases he
    | listening => simp only; split <;> exact Or.inl (by simp [Proc.emit, onListening])

/-- C6 as stated fails: `server.js` does not fix the mongoose it runs with, and
with mongoose 7 or later the call `mongoose.connection.close(callback)` is
rejected, so that a `SIGTERM` received by a connected, listening process ends
it with exit code 1 and the callback never runs; and when the connection
attempt is still pending at `SIGTERM` and then fails, `connectDB` ends the
process with exit code 1 before any close callback. -/
theorem sigterm_exit_one :
    (run liveEnv [.connected "db.internal", .listening, .sigterm,
        .closeRejected noCallback]).exited = some 1
    ∧ Effect.exit 0 ∉ (run liveEnv [.connected "db.internal", .listening, .sigterm,
        .closeRejected noCallback]).effects
    ∧ (run liveEnv [.listening, .sigterm, .connectFailed "ECONNREFUSED"]).exited = some 1 := by
  decide

/-- C6, amended: on `SIGTERM` the handler logs its intent and then calls
`mongoose.connection.close` with a callback, and the process goes on running
with the close pending.  When the callback of a pending close is invoked, it
logs that the connection is closed and the process exits with status 0.  In
every execution the process exits with status 0 only from inside that callback,
after a `SIGTERM`.  And in every execution in which no call of `close` is
rejected, the process runs, or has exited with status 0, or has exited with
status 1 from `connectDB` because the connection attempt, still pending,
failed. -/
theorem sigterm_graceful (env : Env) (evs : List Event) :
    ((run env evs).exited = none →
      (run env (evs ++ [.sigterm])).effects = (run env evs).effects
          ++ [.log "SIGTERM received. Shutting down gracefully...", .close]
        ∧ (run env (evs ++ [.sigterm])).exited = none
        ∧ 0 < (run env (evs ++ [.sigterm])).closing)
    ∧ ((run env evs).exited = none → 0 < (run env evs).closing →
        (run env (evs ++ [.closed])).effects = (run env evs).effects
            ++ [.log "MongoDB connection closed.", .exit 0]
          ∧ (run env (evs ++ [.closed])).exited = some 0)
    ∧ ((run env evs).exited = some 0 →
        ∃ before after, evs = before ++ .closed :: after ∧ Event.sigterm ∈ before
          ∧ (run env before).exited = none
          ∧ (run env (before ++ [.closed])).effects
            = (run env before).effects ++ [.log "MongoDB connection closed.", .exit 0])
    ∧ ((∀ e ∈ evs, e.isCloseRejected = false) →
        (run env evs).exited = none ∨ (run env evs).exited = some 0
          ∨ ((run env evs).exited = some 1
              ∧ ∃ before error after, evs = before ++ .connectFailed error :: after
                ∧ (run env before).connecting = true ∧ (run env before).exited = none)) := by
  refine ⟨fun hx => ?_, fun hx hpos => ?_, ?_, ?_⟩
  · rw [run_snoc]
    simp [Proc.step, hx, run_handler env evs, Proc.emit, onSigterm]
  · rw [run_snoc]
    simp [Proc.step, hx, hpos, Proc.emit, onClosed]
  · induction evs using List.reverseRecOn with
    | nil => intro h; simp [run, boot_eq] at h
    | append_singleton evs e ih =>
      intro h
      by_cases h0 : (run env evs).exited = some 0
      · obtain ⟨before, after, hevs, hmem, halive, heff⟩ := ih h0
        exact ⟨before, after ++ [e], by simp [hevs], hmem, halive, heff⟩
      · rw [run_snoc] at h
        have hnone : (run env evs).exited = none := by
          cases hx : (run env evs).exited with
          | none => rfl
          | some c =>
            have hsome : (run env evs).exited.isSome = true := by simp [hx]
            have hstay : (run env evs).step e = run env evs := by simp [Proc.step, hsome]
            rw [hstay] at h
            exact absurd h h0
        have hpos : 0 < (run env evs).closing := by
          by_contra hzero
          cases e <;>
            simp [Proc.step, hnone, hzero, Proc.emit, connectDB.resume, onSigterm,
              onCloseRejected, onListening] at h <;>
            split at h <;> simp_all
        have he : e = .closed := by
          cases e <;>
            first
            | rfl
            | (simp [Proc.step, hnone, hpos, Proc.emit, connectDB.resume, onSigterm,
                onCloseRejected, onListening] at h <;> split at h <;> simp_all)
        subst he
        refine ⟨evs, [], rfl, run_closing env evs hpos, hnone, ?_⟩
        rw [run_snoc]
        simp [Proc.step, hnone, hpos, Proc.emit, onClosed]
  · induction evs using List.reverseRecOn with
    | nil => intro _; simp [run, boot_eq]
    | append_singleton evs e ih =>
      intro hall
      have ih := ih fun x hx => hall x (List.mem_append_left _ hx)
      rw [run_snoc]
      rcases step_exit (run env evs) e (run_handler env evs) (hall e (by simp)) with
        hsame | ⟨_, _, _, hzero⟩ | ⟨hnone, ⟨error, herr⟩, hconn, hone⟩
      · rw [hsame]
        rcases ih with h | h | ⟨h, before, error, after, hevs, hc, hx⟩
        · exact Or.inl h
        · exact Or.inr (Or.inl h)
        · exact Or.inr (Or.inr ⟨h, before, error, after ++ [e], by simp [hevs], hc, hx⟩)
      · exact Or.inr (Or.inl hzero)
      · subst herr
        exact Or.inr (Or.inr ⟨hone, evs, error, [], rfl, hconn, hnone⟩)

/-- C6, amended, for a connected, listening process in production: a
`SIGTERM` followed by the close callback ends it with status 0. -/
theorem sigterm_graceful_witness :
    (run liveEnv ([.connected "db.internal", .listening, .sigterm] ++ [.closed])).exited
      = some 0 :=
  ((sigterm_graceful liveEnv [.connected "db.internal", .listening, .sigterm]).2.1
    (by decide) (by decide)).2

end SBFoods
